import Mathlib

/-!
Verification development for the slideshow video renderer
(`video_renderer.py`, `src/subtitle_processor.py`, `add_audio_to_videos.py`).

Modelling conventions:
* Python floats are modelled as exact rationals (`ℚ`); `int(x)` is truncation
  toward zero (`pyInt`), `//` on ints is floor division (`Int.fdiv`).
* A numpy image array is a structure of its two dimensions and a pixel
  function; numpy basic slicing `a[y0:y1, x0:x1]` (which clamps, never errors)
  and in-place region assignment are modelled exactly on dimensions and pixels.
* `cv2.resize(img, (w, h))` always yields an `h × w` buffer; its interpolated
  pixel content is modelled by nearest sampling (no claim depends on the
  interpolation weights, only on dimensions and on all-black inputs staying
  all-black, which holds for every interpolation of a constant image).
* `cv2.warpAffine(canvas, M, (s, s))` yields an `s × s` buffer; the affine
  resampling itself is abstracted (its pixel positions are floating-point
  geometry), only the output size and the constant-image case matter here.
* `math.cos`/`math.sin` of the spiral path are abstracted as arbitrary
  oracles `mcos msin : ℚ → ℚ` applied to the progress value; every theorem
  below holds for every choice of the oracles.
* PIL text drawing (`create_subtitle_overlay_from_rst`) mutates pixels of the
  frame in place, so it preserves dimensions; the glyph rasterisation is
  abstracted as an oracle on the pixel function.
* File-system and audio I/O (`cv2.imread`, `AudioFileClip`) are modelled by
  passing their results (an optional decoded image, a duration) as inputs.
-/

/-- A pixel, BGR channel triple as stored by OpenCV. -/
def Pix : Type := ℕ × ℕ × ℕ

/-- A decoded raster: `height × width` buffer of pixels (numpy `ndarray`
of shape `(height, width, 3)`). -/
@[ext]
structure Image where
  height : ℕ
  width : ℕ
  pix : ℕ → ℕ → Pix

/-- The buffer `np.zeros((height, width, 3), dtype=np.uint8)`. -/
def blackImage (height width : ℕ) : Image :=
  { height := height, width := width, pix := fun _ _ => (0, 0, 0) }

/-- Python `int(q)` on a float value: truncation toward zero. -/
def pyInt (q : ℚ) : ℤ :=
  if q < 0 then -⌊-q⌋ else ⌊q⌋

/-- Effective index of a (possibly negative) Python slice bound into an axis
of length `n`, as numpy basic slicing computes it: negative indices count
from the end, and everything is clamped into `[0, n]` (never an error). -/
def npClampIndex (n : ℕ) (i : ℤ) : ℕ :=
  if i < 0 then ((n : ℤ) + i).toNat else min i.toNat n

/-- The numpy read-slice `img[ys:ye, xs:xe]` (step 1). -/
def npSlice2 (img : Image) (ys ye xs xe : ℤ) : Image :=
  let y0 := npClampIndex img.height ys
  let y1 := npClampIndex img.height ye
  let x0 := npClampIndex img.width xs
  let x1 := npClampIndex img.width xe
  { height := y1 - y0
    width := x1 - x0
    pix := fun r c => img.pix (y0 + r) (x0 + c) }

/-- The numpy region assignment `dst[ys:ys+src.height, xs:xs+src.width] = src`
(used on an in-bounds region in `apply_rotate_zoom`). -/
def npAssign (dst : Image) (ys xs : ℤ) (src : Image) : Image :=
  { height := dst.height
    width := dst.width
    pix := fun r c =>
      if ys ≤ (r : ℤ) ∧ (r : ℤ) < ys + src.height ∧
         xs ≤ (c : ℤ) ∧ (c : ℤ) < xs + src.width then
        src.pix ((r : ℤ) - ys).toNat ((c : ℤ) - xs).toNat
      else dst.pix r c }

/-- `cv2.resize(img, (width, height))`: a `height × width` buffer; the
interpolated content is modelled by nearest sampling (see the header note). -/
def cvResize (img : Image) (width height : ℕ) : Image :=
  { height := height
    width := width
    pix := fun r c => img.pix (r * img.height / height) (c * img.width / width) }

/-- `cv2.warpAffine(canvas, rotation_matrix, (dsize, dsize))`: a
`dsize × dsize` buffer; the rotated resampling positions are abstracted
(see the header note), which is exact on constant images. -/
def warpAffine (img : Image) (dsize : ℕ) : Image :=
  { height := dsize, width := dsize, pix := img.pix }

/-- `cv2.cvtColor(frame, cv2.COLOR_BGR2RGB)`: channel swap, shape preserved. -/
def cvtColorBGR2RGB (img : Image) : Image :=
  { height := img.height
    width := img.width
    pix := fun r c => ((img.pix r c).2.2, (img.pix r c).2.1, (img.pix r c).1) }

/-- Effect kind constant `KenBurnsEffect.ZOOM_IN`. -/
def KenBurnsEffect.ZOOM_IN : String := "zoom_in"

/-- Effect kind constant `KenBurnsEffect.ZOOM_OUT`. -/
def KenBurnsEffect.ZOOM_OUT : String := "zoom_out"

/-- Effect kind constant `KenBurnsEffect.PAN_LEFT`. -/
def KenBurnsEffect.PAN_LEFT : String := "pan_left"

/-- Effect kind constant `KenBurnsEffect.PAN_RIGHT`. -/
def KenBurnsEffect.PAN_RIGHT : String := "pan_right"

/-- Effect kind constant `KenBurnsEffect.PAN_UP`. -/
def KenBurnsEffect.PAN_UP : String := "pan_up"

/-- Effect kind constant `KenBurnsEffect.PAN_DOWN`. -/
def KenBurnsEffect.PAN_DOWN : String := "pan_down"

/-- Effect kind constant `KenBurnsEffect.ZOOM_PAN_LEFT`. -/
def KenBurnsEffect.ZOOM_PAN_LEFT : String := "zoom_pan_left"

/-- Effect kind constant `KenBurnsEffect.ZOOM_PAN_RIGHT`. -/
def KenBurnsEffect.ZOOM_PAN_RIGHT : String := "zoom_pan_right"

/-- Effect kind constant `KenBurnsEffect.ZOOM_PAN_UP`. -/
def KenBurnsEffect.ZOOM_PAN_UP : String := "zoom_pan_up"

/-- Effect kind constant `KenBurnsEffect.ZOOM_PAN_DOWN`. -/
def KenBurnsEffect.ZOOM_PAN_DOWN : String := "zoom_pan_down"

/-- Effect kind constant `KenBurnsEffect.ROTATE_ZOOM`. -/
def KenBurnsEffect.ROTATE_ZOOM : String := "rotate_zoom"

/-- Effect kind constant `KenBurnsEffect.SPIRAL`. -/
def KenBurnsEffect.SPIRAL : String := "spiral"

/-- The fixed cyclic effect list `EFFECT_SEQUENCE` of `video_renderer.py`. -/
def EFFECT_SEQUENCE : List String :=
  [KenBurnsEffect.ZOOM_IN,
   KenBurnsEffect.PAN_LEFT,
   KenBurnsEffect.ZOOM_PAN_RIGHT,
   KenBurnsEffect.PAN_UP,
   KenBurnsEffect.ZOOM_OUT,
   KenBurnsEffect.PAN_DOWN,
   KenBurnsEffect.ZOOM_PAN_LEFT,
   KenBurnsEffect.SPIRAL,
   KenBurnsEffect.PAN_RIGHT,
   KenBurnsEffect.ZOOM_PAN_UP,
   KenBurnsEffect.ROTATE_ZOOM,
   KenBurnsEffect.ZOOM_IN,
   KenBurnsEffect.PAN_LEFT,
   KenBurnsEffect.ZOOM_PAN_DOWN,
   KenBurnsEffect.PAN_UP]

/-- `easing_function` of `video_renderer.py`: cubic ease-in-out. -/
def easing_function (t : ℚ) : ℚ :=
  if t < 0.5 then 4 * t * t * t else 1 - (-2 * t + 2) ^ 3 / 2

/-- Geometry of one crop: the dimensions of the buffer being cropped
(the resized/zoomed image, or for `rotate_zoom` the rotated canvas) and the
top-left corner of the `width × height` crop window taken from it. -/
structure CropSpec where
  zoomW : ℕ
  zoomH : ℕ
  startX : ℤ
  startY : ℤ

/-- The crop window is entirely inside the buffer it is taken from. -/
def CropInBounds (s : CropSpec) (width height : ℕ) : Prop :=
  0 ≤ s.startX ∧ s.startX + width ≤ s.zoomW ∧
  0 ≤ s.startY ∧ s.startY + height ≤ s.zoomH

/-- Resize the source to the spec's zoomed size and take the spec's crop:
`zoomed_img[start_y:start_y+height, start_x:start_x+width]` after
`zoomed_img = cv2.resize(img, (zoom_width, zoom_height))`. -/
def crop_from_spec (img : Image) (s : CropSpec) (width height : ℕ) : Image :=
  npSlice2 (cvResize img s.zoomW s.zoomH)
    s.startY (s.startY + height) s.startX (s.startX + width)

/-- Zoom dimensions and crop corner computed by `apply_zoom_in`
(`video_renderer.py` lines 193-206); `progress` is already eased. -/
def apply_zoom_in_crop (progress : ℚ) (width height : ℕ) : CropSpec :=
  let zoom_start : ℚ := 1.0
  let zoom_end : ℚ := 1.3
  let current_zoom := zoom_start + (zoom_end - zoom_start) * progress
  let zoom_height := (pyInt ((height : ℚ) * current_zoom)).toNat
  let zoom_width := (pyInt ((width : ℚ) * current_zoom)).toNat
  let start_y := Int.fdiv ((zoom_height : ℤ) - (height : ℤ)) 2
  let start_x := Int.fdiv ((zoom_width : ℤ) - (width : ℤ)) 2
  { zoomW := zoom_width, zoomH := zoom_height, startX := start_x, startY := start_y }

/-- `apply_zoom_in` of `video_renderer.py`. -/
def apply_zoom_in (img : Image) (progress : ℚ) (width height : ℕ) : Image :=
  crop_from_spec img (apply_zoom_in_crop progress width height) width height

/-- Zoom dimensions and crop corner computed by `apply_zoom_out`
(lines 209-221): zoom interpolates 1.3 → 1.0, crop centered. -/
def apply_zoom_out_crop (progress : ℚ) (width height : ℕ) : CropSpec :=
  let zoom_start : ℚ := 1.3
  let zoom_end : ℚ := 1.0
  let current_zoom := zoom_start + (zoom_end - zoom_start) * progress
  let zoom_height := (pyInt ((height : ℚ) * current_zoom)).toNat
  let zoom_width := (pyInt ((width : ℚ) * current_zoom)).toNat
  let start_y := Int.fdiv ((zoom_height : ℤ) - (height : ℤ)) 2
  let start_x := Int.fdiv ((zoom_width : ℤ) - (width : ℤ)) 2
  { zoomW := zoom_width, zoomH := zoom_height, startX := start_x, startY := start_y }

/-- `apply_zoom_out` of `video_renderer.py`. -/
def apply_zoom_out (img : Image) (progress : ℚ) (width height : ℕ) : Image :=
  crop_from_spec img (apply_zoom_out_crop progress width height) width height

/-- Zoom dimensions and crop corner computed by `apply_pan_left`
(lines 224-238): fixed zoom 1.2, horizontal offset starting at the right
edge and moving left by `progress * pan_distance`, clamped into range. -/
def apply_pan_left_crop (progress : ℚ) (width height : ℕ) : CropSpec :=
  let pan_distance := pyInt ((width : ℚ) * 0.3)
  let zoom_factor : ℚ := 1.2
  let zoom_width := (pyInt ((width : ℚ) * zoom_factor)).toNat
  let zoom_height := (pyInt ((height : ℚ) * zoom_factor)).toNat
  let start_x := pyInt (((zoom_width : ℚ) - (width : ℚ)) - progress * (pan_distance : ℚ))
  let start_y := Int.fdiv ((zoom_height : ℤ) - (height : ℤ)) 2
  let start_x := max 0 (min start_x ((zoom_width : ℤ) - (width : ℤ)))
  { zoomW := zoom_width, zoomH := zoom_height, startX := start_x, startY := start_y }

/-- `apply_pan_left` of `video_renderer.py`. -/
def apply_pan_left (img : Image) (progress : ℚ) (width height : ℕ) : Image :=
  crop_from_spec img (apply_pan_left_crop progress width height) width height

/-- Zoom dimensions and crop corner computed by `apply_pan_right`
(lines 241-254): fixed zoom 1.2, horizontal offset starting at 0 and moving
right by `progress * pan_distance`, clamped into range. -/
def apply_pan_right_crop (progress : ℚ) (width height : ℕ) : CropSpec :=
  let pan_distance := pyInt ((width : ℚ) * 0.3)
  let zoom_factor : ℚ := 1.2
  let zoom_width := (pyInt ((width : ℚ) * zoom_factor)).toNat
  let zoom_height := (pyInt ((height : ℚ) * zoom_factor)).toNat
  let start_x := pyInt (progress * (pan_distance : ℚ))
  let start_y := Int.fdiv ((zoom_height : ℤ) - (height : ℤ)) 2
  let start_x := max 0 (min start_x ((zoom_width : ℤ) - (width : ℤ)))
  { zoomW := zoom_width, zoomH := zoom_height, startX := start_x, startY := start_y }

/-- `apply_pan_right` of `video_renderer.py`. -/
def apply_pan_right (img : Image) (progress : ℚ) (width height : ℕ) : Image :=
  crop_from_spec img (apply_pan_right_crop progress width height) width height

/-- Zoom dimensions and crop corner computed by `apply_pan_up`
(lines 257-270): fixed zoom 1.2, vertical offset from the bottom moving up. -/
def apply_pan_up_crop (progress : ℚ) (width height : ℕ) : CropSpec :=
  let pan_distance := pyInt ((height : ℚ) * 0.3)
  let zoom_factor : ℚ := 1.2
  let zoom_width := (pyInt ((width : ℚ) * zoom_factor)).toNat
  let zoom_height := (pyInt ((height : ℚ) * zoom_factor)).toNat
  let start_x := Int.fdiv ((zoom_width : ℤ) - (width : ℤ)) 2
  let start_y := pyInt (((zoom_height : ℚ) - (height : ℚ)) - progress * (pan_distance : ℚ))
  let start_y := max 0 (min start_y ((zoom_height : ℤ) - (height : ℤ)))
  { zoomW := zoom_width, zoomH := zoom_height, startX := start_x, startY := start_y }

/-- `apply_pan_up` of `video_renderer.py`. -/
def apply_pan_up (img : Image) (progress : ℚ) (width height : ℕ) : Image :=
  crop_from_spec img (apply_pan_up_crop progress width height) width height

/-- Zoom dimensions and crop corner computed by `apply_pan_down`
(lines 273-286): fixed zoom 1.2, vertical offset from the top moving down. -/
def apply_pan_down_crop (progress : ℚ) (width height : ℕ) : CropSpec :=
  let pan_distance := pyInt ((height : ℚ) * 0.3)
  let zoom_factor : ℚ := 1.2
  let zoom_width := (pyInt ((width : ℚ) * zoom_factor)).toNat
  let zoom_height := (pyInt ((height : ℚ) * zoom_factor)).toNat
  let start_x := Int.fdiv ((zoom_width : ℤ) - (width : ℤ)) 2
  let start_y := pyInt (progress * (pan_distance : ℚ))
  let start_y := max 0 (min start_y ((zoom_height : ℤ) - (height : ℤ)))
  { zoomW := zoom_width, zoomH := zoom_height, startX := start_x, startY := start_y }

/-- `apply_pan_down` of `video_renderer.py`. -/
def apply_pan_down (img : Image) (progress : ℚ) (width height : ℕ) : Image :=
  crop_from_spec img (apply_pan_down_crop progress width height) width height

/-- Zoom dimensions and crop corner computed by `apply_zoom_pan_left`
(lines 289-305): zoom 1.0 → 1.25, horizontal offset centered minus
`progress * pan_distance`, clamped. -/
def apply_zoom_pan_left_crop (progress : ℚ) (width height : ℕ) : CropSpec :=
  let zoom_start : ℚ := 1.0
  let zoom_end : ℚ := 1.25
  let current_zoom := zoom_start + (zoom_end - zoom_start) * progress
  let pan_distance := pyInt ((width : ℚ) * 0.2)
  let zoom_width := (pyInt ((width : ℚ) * current_zoom)).toNat
  let zoom_height := (pyInt ((height : ℚ) * current_zoom)).toNat
  let start_x := pyInt (((zoom_width : ℚ) - (width : ℚ)) / 2 - progress * (pan_distance : ℚ))
  let start_y := Int.fdiv ((zoom_height : ℤ) - (height : ℤ)) 2
  let start_x := max 0 (min start_x ((zoom_width : ℤ) - (width : ℤ)))
  { zoomW := zoom_width, zoomH := zoom_height, startX := start_x, startY := start_y }

/-- `apply_zoom_pan_left` of `video_renderer.py`. -/
def apply_zoom_pan_left (img : Image) (progress : ℚ) (width height : ℕ) : Image :=
  crop_from_spec img (apply_zoom_pan_left_crop progress width height) width height

/-- Zoom dimensions and crop corner computed by `apply_zoom_pan_right`
(lines 308-324). -/
def apply_zoom_pan_right_crop (progress : ℚ) (width height : ℕ) : CropSpec :=
  let zoom_start : ℚ := 1.0
  let zoom_end : ℚ := 1.25
  let current_zoom := zoom_start + (zoom_end - zoom_start) * progress
  let pan_distance := pyInt ((width : ℚ) * 0.2)
  let zoom_width := (pyInt ((width : ℚ) * current_zoom)).toNat
  let zoom_height := (pyInt ((height : ℚ) * current_zoom)).toNat
  let start_x := pyInt (((zoom_width : ℚ) - (width : ℚ)) / 2 + progress * (pan_distance : ℚ))
  let start_y := Int.fdiv ((zoom_height : ℤ) - (height : ℤ)) 2
  let start_x := max 0 (min start_x ((zoom_width : ℤ) - (width : ℤ)))
  { zoomW := zoom_width, zoomH := zoom_height, startX := start_x, startY := start_y }

/-- `apply_zoom_pan_right` of `video_renderer.py`. -/
def apply_zoom_pan_right (img : Image) (progress : ℚ) (width height : ℕ) : Image :=
  crop_from_spec img (apply_zoom_pan_right_crop progress width height) width height

/-- Zoom dimensions and crop corner computed by `apply_zoom_pan_up`
(lines 327-343). -/
def apply_zoom_pan_up_crop (progress : ℚ) (width height : ℕ) : CropSpec :=
  let zoom_start : ℚ := 1.0
  let zoom_end : ℚ := 1.25
  let current_zoom := zoom_start + (zoom_end - zoom_start) * progress
  let pan_distance := pyInt ((height : ℚ) * 0.2)
  let zoom_width := (pyInt ((width : ℚ) * current_zoom)).toNat
  let zoom_height := (pyInt ((height : ℚ) * current_zoom)).toNat
  let start_x := Int.fdiv ((zoom_width : ℤ) - (width : ℤ)) 2
  let start_y := pyInt (((zoom_height : ℚ) - (height : ℚ)) / 2 - progress * (pan_distance : ℚ))
  let start_y := max 0 (min start_y ((zoom_height : ℤ) - (height : ℤ)))
  { zoomW := zoom_width, zoomH := zoom_height, startX := start_x, startY := start_y }

/-- `apply_zoom_pan_up` of `video_renderer.py`. -/
def apply_zoom_pan_up (img : Image) (progress : ℚ) (width height : ℕ) : Image :=
  crop_from_spec img (apply_zoom_pan_up_crop progress width height) width height

/-- Zoom dimensions and crop corner computed by `apply_zoom_pan_down`
(lines 346-362). -/
def apply_zoom_pan_down_crop (progress : ℚ) (width height : ℕ) : CropSpec :=
  let zoom_start : ℚ := 1.0
  let zoom_end : ℚ := 1.25
  let current_zoom := zoom_start + (zoom_end - zoom_start) * progress
  let pan_distance := pyInt ((height : ℚ) * 0.2)
  let zoom_width := (pyInt ((width : ℚ) * current_zoom)).toNat
  let zoom_height := (pyInt ((height : ℚ) * current_zoom)).toNat
  let start_x := Int.fdiv ((zoom_width : ℤ) - (width : ℤ)) 2
  let start_y := pyInt (((zoom_height : ℚ) - (height : ℚ)) / 2 + progress * (pan_distance : ℚ))
  let start_y := max 0 (min start_y ((zoom_height : ℤ) - (height : ℤ)))
  { zoomW := zoom_width, zoomH := zoom_height, startX := start_x, startY := start_y }

/-- `apply_zoom_pan_down` of `video_renderer.py`. -/
def apply_zoom_pan_down (img : Image) (progress : ℚ) (width height : ℕ) : Image :=
  crop_from_spec img (apply_zoom_pan_down_crop progress width height) width height

/-- Canvas size and the final centered crop corner of `apply_rotate_zoom`
(lines 365-396): here the buffer being cropped is the rotated canvas, so
`zoomW = zoomH = canvas_size`. -/
def apply_rotate_zoom_crop (progress : ℚ) (width height : ℕ) : CropSpec :=
  let zoom_start : ℚ := 1.1
  let zoom_end : ℚ := 1.3
  let current_zoom := zoom_start + (zoom_end - zoom_start) * progress
  let canvas_size := (pyInt ((max width height : ℕ) * current_zoom * 1.5)).toNat
  let final_start_y := Int.fdiv ((canvas_size : ℤ) - (height : ℤ)) 2
  let final_start_x := Int.fdiv ((canvas_size : ℤ) - (width : ℤ)) 2
  { zoomW := canvas_size, zoomH := canvas_size,
    startX := final_start_x, startY := final_start_y }

/-- `apply_rotate_zoom` of `video_renderer.py` (lines 365-396): the zoomed
image is placed at the center of an oversized square canvas, the canvas is
rotated (rotation angle `sin(progress·π)·3`, absorbed into `warpAffine`'s
abstraction), and the target size is cropped from the canvas center. -/
def apply_rotate_zoom (img : Image) (progress : ℚ) (width height : ℕ) : Image :=
  let zoom_start : ℚ := 1.1
  let zoom_end : ℚ := 1.3
  let current_zoom := zoom_start + (zoom_end - zoom_start) * progress
  let canvas_size := (pyInt ((max width height : ℕ) * current_zoom * 1.5)).toNat
  let canvas := blackImage canvas_size canvas_size
  let zoom_width := (pyInt ((width : ℚ) * current_zoom)).toNat
  let zoom_height := (pyInt ((height : ℚ) * current_zoom)).toNat
  let zoomed_img := cvResize img zoom_width zoom_height
  let start_y := Int.fdiv ((canvas_size : ℤ) - (zoom_height : ℤ)) 2
  let start_x := Int.fdiv ((canvas_size : ℤ) - (zoom_width : ℤ)) 2
  let placed := npAssign canvas start_y start_x zoomed_img
  let rotated := warpAffine placed canvas_size
  let s := apply_rotate_zoom_crop progress width height
  npSlice2 rotated s.startY (s.startY + height) s.startX (s.startX + width)

/-- Zoom dimensions and crop corner computed by `apply_spiral`
(lines 399-425): zoom 1.0 → 1.4, centered crop displaced along a circular
path of radius `min(width,height)·0.1·progress`; `mcos`/`msin` abstract
`math.cos(progress·2π)`/`math.sin(progress·2π)`; both axes are clamped. -/
def apply_spiral_crop (mcos msin : ℚ → ℚ) (progress : ℚ) (width height : ℕ) :
    CropSpec :=
  let zoom_start : ℚ := 1.0
  let zoom_end : ℚ := 1.4
  let current_zoom := zoom_start + (zoom_end - zoom_start) * progress
  let spiral_radius := (min width height : ℕ) * 0.1 * progress
  let pan_x := pyInt (mcos progress * spiral_radius)
  let pan_y := pyInt (msin progress * spiral_radius)
  let zoom_width := (pyInt ((width : ℚ) * current_zoom)).toNat
  let zoom_height := (pyInt ((height : ℚ) * current_zoom)).toNat
  let start_x := Int.fdiv ((zoom_width : ℤ) - (width : ℤ)) 2 + pan_x
  let start_y := Int.fdiv ((zoom_height : ℤ) - (height : ℤ)) 2 + pan_y
  let start_x := max 0 (min start_x ((zoom_width : ℤ) - (width : ℤ)))
  let start_y := max 0 (min start_y ((zoom_height : ℤ) - (height : ℤ)))
  { zoomW := zoom_width, zoomH := zoom_height, startX := start_x, startY := start_y }

/-- `apply_spiral` of `video_renderer.py`. -/
def apply_spiral (mcos msin : ℚ → ℚ) (img : Image) (progress : ℚ)
    (width height : ℕ) : Image :=
  crop_from_spec img (apply_spiral_crop mcos msin progress width height)
    width height

/-- `apply_ken_burns_effect` of `video_renderer.py` (lines 134-181):
clamps `progress` to `[0,1]`, applies the cubic easing, then dispatches on
the effect kind, defaulting to `apply_zoom_in` for unrecognized kinds. -/
def apply_ken_burns_effect (mcos msin : ℚ → ℚ) (img : Image) (progress : ℚ)
    (effect_type : String) (width height : ℕ) : Image :=
  let progress := max 0.0 (min 1.0 progress)
  let eased_progress := easing_function progress
  if effect_type = KenBurnsEffect.ZOOM_IN then
    apply_zoom_in img eased_progress width height
  else if effect_type = KenBurnsEffect.ZOOM_OUT then
    apply_zoom_out img eased_progress width height
  else if effect_type = KenBurnsEffect.PAN_LEFT then
    apply_pan_left img eased_progress width height
  else if effect_type = KenBurnsEffect.PAN_RIGHT then
    apply_pan_right img eased_progress width height
  else if effect_type = KenBurnsEffect.PAN_UP then
    apply_pan_up img eased_progress width height
  else if effect_type = KenBurnsEffect.PAN_DOWN then
    apply_pan_down img eased_progress width height
  else if effect_type = KenBurnsEffect.ZOOM_PAN_LEFT then
    apply_zoom_pan_left img eased_progress width height
  else if effect_type = KenBurnsEffect.ZOOM_PAN_RIGHT then
    apply_zoom_pan_right img eased_progress width height
  else if effect_type = KenBurnsEffect.ZOOM_PAN_UP then
    apply_zoom_pan_up img eased_progress width height
  else if effect_type = KenBurnsEffect.ZOOM_PAN_DOWN then
    apply_zoom_pan_down img eased_progress width height
  else if effect_type = KenBurnsEffect.ROTATE_ZOOM then
    apply_rotate_zoom img eased_progress width height
  else if effect_type = KenBurnsEffect.SPIRAL then
    apply_spiral mcos msin img eased_progress width height
  else
    apply_zoom_in img eased_progress width height

/-- The crop geometry used inside `apply_ken_burns_effect` for a given kind
and raw progress value (same clamping, easing and dispatch; for
`rotate_zoom` this is the final crop from the rotated canvas). -/
def ken_burns_crop (mcos msin : ℚ → ℚ) (progress : ℚ) (effect_type : String)
    (width height : ℕ) : CropSpec :=
  let progress := max 0.0 (min 1.0 progress)
  let eased_progress := easing_function progress
  if effect_type = KenBurnsEffect.ZOOM_IN then
    apply_zoom_in_crop eased_progress width height
  else if effect_type = KenBurnsEffect.ZOOM_OUT then
    apply_zoom_out_crop eased_progress width height
  else if effect_type = KenBurnsEffect.PAN_LEFT then
    apply_pan_left_crop eased_progress width height
  else if effect_type = KenBurnsEffect.PAN_RIGHT then
    apply_pan_right_crop eased_progress width height
  else if effect_type = KenBurnsEffect.PAN_UP then
    apply_pan_up_crop eased_progress width height
  else if effect_type = KenBurnsEffect.PAN_DOWN then
    apply_pan_down_crop eased_progress width height
  else if effect_type = KenBurnsEffect.ZOOM_PAN_LEFT then
    apply_zoom_pan_left_crop eased_progress width height
  else if effect_type = KenBurnsEffect.ZOOM_PAN_RIGHT then
    apply_zoom_pan_right_crop eased_progress width height
  else if effect_type = KenBurnsEffect.ZOOM_PAN_UP then
    apply_zoom_pan_up_crop eased_progress width height
  else if effect_type = KenBurnsEffect.ZOOM_PAN_DOWN then
    apply_zoom_pan_down_crop eased_progress width height
  else if effect_type = KenBurnsEffect.ROTATE_ZOOM then
    apply_rotate_zoom_crop eased_progress width height
  else if effect_type = KenBurnsEffect.SPIRAL then
    apply_spiral_crop mcos msin eased_progress width height
  else
    apply_zoom_in_crop eased_progress width height

/-- A caption segment as produced by
`SubtitleProcessor.generate_complete_rst_file`. -/
structure Segment where
  scene : ℕ
  chunk : ℕ
  text : String
  start_time : ℚ
  end_time : ℚ
  duration : ℚ

/-- A parsed subtitle entry as used by `SubtitleRenderer.get_subtitle_at_time`
(the fields of `timing_info` that the lookup reads). -/
structure TimingInfo where
  text : String
  start_time : ℚ
  end_time : ℚ

/-- The punctuation character class of `SubtitleProcessor.remove_punctuation`
(`subtitle_processor.py` line 31). -/
def punctuation_chars : String :=
  "，。！？：；“”‘’「」『』（）【】《》〈〉、,.!?:;\"'()[]\x7b\x7d<>/|~\x60@#$%^&*+=_-"

/-- Python `str.strip()`: drop leading and trailing whitespace (computed
over the code-point list, which Python strings are sequences of). -/
def pyStrip (s : String) : String :=
  ((s.data.dropWhile Char.isWhitespace).reverse.dropWhile
    Char.isWhitespace).reverse.asString

/-- Splitter for Python `text.split()` over the code-point list: cut at
whitespace runs, dropping empty pieces (`cur` is the reversed current word). -/
def pySplitWsChars : List Char → List Char → List (List Char)
  | [], cur => if cur = [] then [] else [cur.reverse]
  | c :: cs, cur =>
    if c.isWhitespace then
      if cur = [] then pySplitWsChars cs [] else cur.reverse :: pySplitWsChars cs []
    else
      pySplitWsChars cs (c :: cur)

/-- Python `text.split()`: split on whitespace runs, dropping empty pieces. -/
def pySplitWs (s : String) : List String :=
  (pySplitWsChars s.data []).map List.asString

/-- `SubtitleProcessor.remove_punctuation` (`subtitle_processor.py` 28-36):
replace every punctuation character by a space (the regex character class is
a per-character match), collapse whitespace runs to single spaces, strip. -/
def remove_punctuation (text : String) : String :=
  let replaced := (text.data.map (fun c =>
    if punctuation_chars.data.contains c then ' ' else c)).asString
  String.intercalate " " (pySplitWs replaced)

/-- The word-packing loop of `SubtitleProcessor.split_into_chunks`:
greedily extend `current_chunk` while the length stays within the limit. -/
def chunks_go (max_chars_per_chunk : ℕ) (words : List String)
    (current_chunk : String) : List String :=
  match words with
  | [] => if pyStrip current_chunk ≠ "" then [pyStrip current_chunk] else []
  | word :: rest =>
    let test_chunk := current_chunk ++ (if current_chunk ≠ "" then " " else "") ++ word
    if test_chunk.length ≤ max_chars_per_chunk then
      chunks_go max_chars_per_chunk rest test_chunk
    else if pyStrip current_chunk ≠ "" then
      pyStrip current_chunk :: chunks_go max_chars_per_chunk rest word
    else
      chunks_go max_chars_per_chunk rest word

/-- `SubtitleProcessor.split_into_chunks` (`subtitle_processor.py` 38-62). -/
def split_into_chunks (text : String) (max_chars_per_chunk : ℕ) : List String :=
  chunks_go max_chars_per_chunk (pySplitWs text) ""

/-- The chunk list of one scene in `generate_complete_rst_file`
(lines 242-245): `split_into_chunks(remove_punctuation(caption_text))`
with the default chunk size 15. -/
def scene_chunks (caption_text : String) : List String :=
  split_into_chunks (remove_punctuation caption_text) 15

/-- The per-chunk time share of one scene (line 248):
`scene_duration / len(chunks) if chunks else scene_duration`. -/
def scene_chunk_duration (caption_text : String) (scene_duration : ℚ) : ℚ :=
  if scene_chunks caption_text ≠ [] then
    scene_duration / ((scene_chunks caption_text).length : ℚ)
  else scene_duration

/-- The segment record built for chunk `jc = (j, chunk)` of scene `i`
starting at `current_start_time` (lines 251-263). -/
def scene_segment (i : ℕ) (current_start_time chunk_duration : ℚ)
    (jc : ℕ × String) : Segment :=
  { scene := i
    chunk := jc.1 + 1
    text := jc.2
    start_time := current_start_time + (jc.1 : ℚ) * chunk_duration
    end_time := current_start_time + ((jc.1 : ℚ) + 1) * chunk_duration
    duration := chunk_duration }

/-- One scene iteration of `generate_complete_rst_file` plus the recursion
over the remaining scenes: scene `i` starts at `current_start_time`, its
cleaned caption is chunked, the scene duration is split evenly over the
chunks, and the next scene starts `scene_duration` later. Each input pair is
`(caption_text, scene_duration)`; the scene duration is the probed audio
duration (or the 3.0 s default when the file is missing or unreadable). -/
def generate_segments (scenes : List (String × ℚ)) (i : ℕ)
    (current_start_time : ℚ) : List Segment :=
  match scenes with
  | [] => []
  | (caption_text, scene_duration) :: rest =>
    ((scene_chunks caption_text).enum.map
      (scene_segment i current_start_time
        (scene_chunk_duration caption_text scene_duration))) ++
    generate_segments rest (i + 1) (current_start_time + scene_duration)

/-- `SubtitleProcessor.generate_complete_rst_file` (`subtitle_processor.py`
209-280), restricted to the segment list it returns: scene numbering starts
at 1 and the timeline starts at 0. RST serialisation is on-disk persistence
and is not part of the returned value. -/
def generate_complete_rst_file (scenes : List (String × ℚ)) : List Segment :=
  generate_segments scenes 1 0

/-- `SubtitleRenderer.get_subtitle_at_time` (`subtitle_processor.py`
419-424): text of the first entry whose closed interval contains the time,
else the empty string. -/
def get_subtitle_at_time (timing_info : List TimingInfo) (current_time : ℚ) :
    String :=
  match timing_info with
  | [] => ""
  | info :: rest =>
    if info.start_time ≤ current_time ∧ current_time ≤ info.end_time then
      info.text
    else
      get_subtitle_at_time rest current_time

/-- Minimum of a nonempty Python list of floats (`min(...)` in
`render_frame_batch`); 0 as the unused default for the empty list. -/
def list_min (l : List ℚ) : ℚ :=
  match l with
  | [] => 0
  | x :: xs => xs.foldl min x

/-- Maximum of a nonempty Python list of floats (`max(...)` in
`render_frame_batch`); 0 as the unused default for the empty list. -/
def list_max (l : List ℚ) : ℚ :=
  match l with
  | [] => 0
  | x :: xs => xs.foldl max x

/-- The scene lookup of `render_frame_batch` (`video_renderer.py` 537-555):
scan for the first segment whose half-open interval
`start_time ≤ t < end_time` contains the time; on a hit the scene window is
the min/max over all segments of that scene; otherwise the defaults
`(1, 0, 0)`; finally a zero `scene_end_time` is replaced by
`scene_start_time + 3.0`. Returns `(scene_number, scene_start, scene_end)`. -/
def scene_lookup (all_segments : List Segment) (current_time : ℚ) :
    ℕ × ℚ × ℚ :=
  let found := all_segments.find? (fun segment =>
    decide (segment.start_time ≤ current_time ∧ current_time < segment.end_time))
  let info : ℕ × ℚ × ℚ :=
    match found with
    | some segment =>
      let scene_segments := all_segments.filter (fun seg => seg.scene == segment.scene)
      (segment.scene,
       list_min (scene_segments.map (fun seg => seg.start_time)),
       list_max (scene_segments.map (fun seg => seg.end_time)))
    | none => (1, 0, 0)
  (info.1, info.2.1, if info.2.2 = 0 then info.2.1 + 3.0 else info.2.2)

/-- Effect assignment of `render_frame_batch` line 570:
`EFFECT_SEQUENCE[(scene_number - 1) % len(EFFECT_SEQUENCE)]`
(scene numbers are 1-based, so the index is in range). -/
def effect_for_scene (scene_number : ℕ) : String :=
  EFFECT_SEQUENCE.getD ((scene_number - 1) % EFFECT_SEQUENCE.length)
    KenBurnsEffect.ZOOM_IN

/-- `get_cached_image` (`video_renderer.py` 444-464) on a cache miss:
`decoded` is the result of `cv2.imread` (`none` on decode failure); a
failed decode yields `np.zeros((height, width, 3))`, a successful one is
resized to the target size. The cache insertion, the returned defensive
copy and the printed warning are side effects outside the value model. -/
def get_cached_image (decoded : Option Image) (width height : ℕ) : Image :=
  match decoded with
  | none => blackImage height width
  | some img => cvResize img width height

/-- `create_subtitle_overlay_from_rst` (`video_renderer.py` 467-511): the
frame is returned unchanged when the active subtitle text is blank;
otherwise the stroked and filled text is drawn onto the frame in place,
modelled by the glyph oracle `textO` acting on the pixel function (PIL
drawing preserves the buffer's size). -/
def create_subtitle_overlay_from_rst
    (textO : String → (ℕ → ℕ → Pix) → (ℕ → ℕ → Pix)) (frame : Image)
    (rst_timing : List TimingInfo) (current_time : ℚ) : Image :=
  let subtitle_text := get_subtitle_at_time rst_timing current_time
  if subtitle_text.trim = "" then frame
  else
    { height := frame.height, width := frame.width,
      pix := textO subtitle_text frame.pix }

/-- The per-frame body of `render_frame_batch` (`video_renderer.py`
537-582): locate the scene for the timestamp, fetch the (possibly
placeholder) scene image — `decode_of` gives `cv2.imread`'s result per
scene number —, compute the clamped scene-local progress, apply the
scene's effect, and overlay the subtitle. -/
def render_single_frame (mcos msin : ℚ → ℚ)
    (textO : String → (ℕ → ℕ → Pix) → (ℕ → ℕ → Pix))
    (decode_of : ℕ → Option Image) (all_segments : List Segment)
    (rst_timing : List TimingInfo) (width height : ℕ)
    (current_time : ℚ) : Image :=
  let s := scene_lookup all_segments current_time
  let scene_number := s.1
  let scene_start_time := s.2.1
  let scene_end_time := s.2.2
  let img := get_cached_image (decode_of scene_number) width height
  let scene_duration := scene_end_time - scene_start_time
  let scene_duration := if scene_duration ≤ 0 then 1.0 else scene_duration
  let scene_progress := (current_time - scene_start_time) / scene_duration
  let scene_progress := max 0 (min 1 scene_progress)
  let effect_type := effect_for_scene scene_number
  let frame := apply_ken_burns_effect mcos msin img scene_progress effect_type
    width height
  create_subtitle_overlay_from_rst textO frame rst_timing current_time

/-- Frame count of `create_complete_video` line 678:
`total_frames = int(total_duration * fps)`. -/
def total_frames (total_duration : ℚ) (fps : ℕ) : ℕ :=
  (pyInt (total_duration * (fps : ℚ))).toNat

/-- Batch size of `create_complete_video` line 695:
`batch_size = max(30, total_frames // (max_workers * 4))`. -/
def batch_size (tf max_workers : ℕ) : ℕ :=
  max 30 (tf / (max_workers * 4))

/-- Python `range(start, stop, step)` for a positive step. -/
def pyRangeStep (start stop step : ℕ) : List ℕ :=
  (List.range ((stop - start + step - 1) / step)).map (fun k => start + k * step)

/-- The batch construction of `create_complete_video` lines 698-702: for
each `i` in `range(0, total_frames, batch_size)` one batch of
`(frame_index, timestamp)` pairs for `range(i, min(i+batch_size, total_frames))`,
with `timestamp = j / fps`. -/
def frame_batches (tf bs fps : ℕ) : List (List (ℕ × ℚ)) :=
  (pyRangeStep 0 tf bs).map (fun i =>
    let batch_end := min (i + bs) tf
    (List.range' i (batch_end - i)).map (fun j => (j, (j : ℚ) / (fps : ℚ))))

/-- The result-collection loop of `create_complete_video` lines 726-739:
each finished batch contributes its `(index, frame)` pairs to the shared
dictionary; a batch whose future raised (`none`) is logged and skipped. -/
def insert_frames (buf : ℕ → Option Image) (frames : List (ℕ × Image)) :
    ℕ → Option Image :=
  frames.foldl (fun b p => fun idx => if idx = p.1 then some p.2 else b idx) buf

/-- Collection of all batch results into the frame dictionary
`all_rendered_frames` (empty at the start; failed batches skipped). -/
def collect_rendered_frames (results : List (Option (List (ℕ × Image)))) :
    ℕ → Option Image :=
  results.foldl (fun buf r =>
    match r with
    | some frames => insert_frames buf frames
    | none => buf) (fun _ => none)

/-- `make_frame` of `create_complete_video` (lines 744-753): look up the
frame for `int(t * fps)`; a present frame is converted BGR→RGB, a missing
one is replaced by a black `height × width` frame. -/
def make_frame (all_rendered_frames : ℕ → Option Image) (fps width height : ℕ)
    (t : ℚ) : Image :=
  let frame_idx := (pyInt (t * (fps : ℚ))).toNat
  match all_rendered_frames frame_idx with
  | some frame => cvtColorBGR2RGB frame
  | none => blackImage height width

/-- An audio clip: a duration and an amplitude sample function (moviepy
`AudioFileClip`-like value; only duration and samples matter here). -/
structure AudioClip where
  duration : ℚ
  sample : ℚ → ℚ

/-- Moviepy `concatenate_audioclips` sample lookup: play each clip in turn. -/
def concat_sample (clips : List AudioClip) (t : ℚ) : ℚ :=
  match clips with
  | [] => 0
  | c :: rest => if t < c.duration then c.sample t else concat_sample rest (t - c.duration)

/-- Moviepy `concatenate_audioclips`: total duration is the sum, samples are
taken from the clip covering the queried time. -/
def concatenate_audioclips (clips : List AudioClip) : AudioClip :=
  { duration := (clips.map (fun c => c.duration)).sum
    sample := concat_sample clips }

/-- Moviepy `clip.subclipped(a, b)`. -/
def subclipped (c : AudioClip) (a b : ℚ) : AudioClip :=
  { duration := b - a, sample := fun t => c.sample (a + t) }

/-- Moviepy `clip.with_volume_scaled(f)`. -/
def with_volume_scaled (c : AudioClip) (f : ℚ) : AudioClip :=
  { duration := c.duration, sample := fun t => f * c.sample t }

/-- `process_background_music` of `create_complete_video` (`video_renderer.py`
775-799), given the loaded background clip: when the music is shorter than
the video it is repeated `int(np.ceil(total/duration))` times and the
concatenation is cut to `total_duration`; otherwise it is cut directly; the
result is volume-scaled by 0.3. -/
def process_background_music (bg_music_clip : AudioClip) (total_duration : ℚ) :
    AudioClip :=
  let bg_music :=
    if bg_music_clip.duration < total_duration then
      let loops_needed := (⌈total_duration / bg_music_clip.duration⌉).toNat
      concatenate_audioclips (List.replicate loops_needed bg_music_clip)
    else
      bg_music_clip
  with_volume_scaled (subclipped bg_music 0 total_duration) 0.3

/-! ### Arithmetic helper lemmas -/

theorem pyInt_of_nonneg {q : ℚ} (h : 0 ≤ q) : pyInt q = ⌊q⌋ := by
  unfold pyInt
  rw [if_neg (not_lt.2 h)]

theorem pyInt_intCast (a : ℤ) : pyInt (a : ℚ) = a := by
  unfold pyInt
  split_ifs with h
  · rw [← Int.cast_neg, Int.floor_intCast]; ring
  · exact Int.floor_intCast a

theorem pyInt_mono {a b : ℚ} (h : a ≤ b) : pyInt a ≤ pyInt b := by
  unfold pyInt
  split_ifs with h1 h2 h2
  · have : (-b : ℚ) ≤ -a := by linarith
    have := Int.floor_mono this
    omega
  · have hb0 : (0:ℤ) ≤ ⌊b⌋ := Int.floor_nonneg.2 (not_lt.1 h2)
    have ha0 : (0:ℤ) ≤ ⌊-a⌋ := Int.floor_nonneg.2 (by linarith)
    omega
  · exact absurd (lt_of_le_of_lt h h2) h1
  · exact Int.floor_mono h

theorem le_pyInt_toNat (n : ℕ) (z : ℚ) (hz : 1 ≤ z) :
    n ≤ (pyInt ((n : ℚ) * z)).toNat := by
  have h0 : (0:ℚ) ≤ (n : ℚ) * z := by positivity
  have h2 : (n : ℤ) ≤ ⌊(n : ℚ) * z⌋ := by
    rw [Int.le_floor]
    push_cast
    nlinarith [mul_nonneg (show (0:ℚ) ≤ (n : ℚ) by positivity) (sub_nonneg.2 hz)]
  rw [pyInt_of_nonneg h0]
  omega

theorem fdiv_two_ofNat (m : ℕ) : Int.fdiv (m : ℤ) 2 = ((m / 2 : ℕ) : ℤ) :=
  (Int.ofNat_fdiv m 2).symm

theorem centered_bounds {d n : ℕ} (h : n ≤ d) :
    0 ≤ Int.fdiv ((d : ℤ) - (n : ℤ)) 2 ∧
    Int.fdiv ((d : ℤ) - (n : ℤ)) 2 + (n : ℤ) ≤ (d : ℤ) := by
  have hc : (d : ℤ) - (n : ℤ) = ((d - n : ℕ) : ℤ) := by omega
  rw [hc, fdiv_two_ofNat]
  omega

theorem clamp_bounds {s m : ℤ} (hm : 0 ≤ m) :
    0 ≤ max 0 (min s m) ∧ max 0 (min s m) ≤ m := by omega

theorem easing_mem {t : ℚ} (h0 : 0 ≤ t) (h1 : t ≤ 1) :
    0 ≤ easing_function t ∧ easing_function t ≤ 1 := by
  unfold easing_function
  split_ifs with h
  · norm_num at h
    constructor
    · positivity
    · nlinarith [mul_nonneg (show (0:ℚ) ≤ 1/2 - t by linarith) (mul_nonneg h0 h0),
        mul_nonneg (show (0:ℚ) ≤ 1/2 - t by linarith) (show (0:ℚ) ≤ 1/2 + t by linarith)]
  · push_neg at h
    have hu0 : (0:ℚ) ≤ -2 * t + 2 := by linarith
    have hu1 : (-2 * t + 2 : ℚ) ≤ 1 := by
      norm_num at h
      linarith
    have hp0 : (0:ℚ) ≤ (-2 * t + 2) ^ 3 := by positivity
    have hp1 : ((-2 * t + 2 : ℚ)) ^ 3 ≤ 1 := pow_le_one₀ hu0 hu1
    constructor <;> linarith

theorem clamp01_mem (p : ℚ) :
    0 ≤ max 0.0 (min 1.0 p) ∧ max 0.0 (min 1.0 p) ≤ 1 := by
  constructor
  · have : (0:ℚ) ≤ (0.0 : ℚ) := by norm_num
    exact le_trans this (le_max_left _ _)
  · apply max_le
    · norm_num
    · exact le_trans (min_le_left _ _) (by norm_num)

theorem zoom_linear_ge_one {a b e : ℚ} (ha : 1 ≤ a) (hb : 1 ≤ b)
    (he0 : 0 ≤ e) (he1 : e ≤ 1) : 1 ≤ a + (b - a) * e := by nlinarith

/-! ### Slice and crop geometry lemmas -/

theorem npSlice2_size (img : Image) (sy sx : ℤ) (h w : ℕ)
    (hy0 : 0 ≤ sy) (hy1 : sy + h ≤ img.height)
    (hx0 : 0 ≤ sx) (hx1 : sx + w ≤ img.width) :
    (npSlice2 img sy (sy + h) sx (sx + w)).height = h ∧
    (npSlice2 img sy (sy + h) sx (sx + w)).width = w := by
  unfold npSlice2 npClampIndex
  dsimp only
  constructor <;> (split_ifs <;> omega)

theorem crop_from_spec_size (img : Image) (s : CropSpec) (w h : ℕ)
    (hb : CropInBounds s w h) :
    (crop_from_spec img s w h).height = h ∧
    (crop_from_spec img s w h).width = w := by
  obtain ⟨hx0, hx1, hy0, hy1⟩ := hb
  exact npSlice2_size (cvResize img s.zoomW s.zoomH) s.startY s.startX h w
    hy0 hy1 hx0 hx1

theorem crop_from_spec_black (H W : ℕ) (s : CropSpec) (w h : ℕ)
    (hb : CropInBounds s w h) :
    crop_from_spec (blackImage H W) s w h = blackImage h w := by
  have hs := crop_from_spec_size (blackImage H W) s w h hb
  ext r c
  · exact hs.1
  · exact hs.2
  · rfl

/-! ### Per-effect crop bounds -/

theorem apply_zoom_in_crop_inBounds {e : ℚ} (he0 : 0 ≤ e) (he1 : e ≤ 1)
    (w h : ℕ) : CropInBounds (apply_zoom_in_crop e w h) w h := by
  have hz : (1:ℚ) ≤ 1.0 + (1.3 - 1.0) * e := by nlinarith
  have hW := le_pyInt_toNat w _ hz
  have hH := le_pyInt_toNat h _ hz
  have hx := centered_bounds hW
  have hy := centered_bounds hH
  exact ⟨hx.1, hx.2, hy.1, hy.2⟩

theorem apply_zoom_out_crop_inBounds {e : ℚ} (he0 : 0 ≤ e) (he1 : e ≤ 1)
    (w h : ℕ) : CropInBounds (apply_zoom_out_crop e w h) w h := by
  have hz : (1:ℚ) ≤ 1.3 + (1.0 - 1.3) * e := by nlinarith
  have hW := le_pyInt_toNat w _ hz
  have hH := le_pyInt_toNat h _ hz
  have hx := centered_bounds hW
  have hy := centered_bounds hH
  exact ⟨hx.1, hx.2, hy.1, hy.2⟩

theorem apply_pan_left_crop_inBounds (e : ℚ) (w h : ℕ) :
    CropInBounds (apply_pan_left_crop e w h) w h := by
  have hW := le_pyInt_toNat w 1.2 (by norm_num)
  have hH := le_pyInt_toNat h 1.2 (by norm_num)
  have hy := centered_bounds hH
  unfold CropInBounds apply_pan_left_crop
  dsimp only
  refine ⟨?_, ?_, hy.1, hy.2⟩ <;> omega

theorem apply_pan_right_crop_inBounds (e : ℚ) (w h : ℕ) :
    CropInBounds (apply_pan_right_crop e w h) w h := by
  have hW := le_pyInt_toNat w 1.2 (by norm_num)
  have hH := le_pyInt_toNat h 1.2 (by norm_num)
  have hy := centered_bounds hH
  unfold CropInBounds apply_pan_right_crop
  dsimp only
  refine ⟨?_, ?_, hy.1, hy.2⟩ <;> omega

theorem apply_pan_up_crop_inBounds (e : ℚ) (w h : ℕ) :
    CropInBounds (apply_pan_up_crop e w h) w h := by
  have hW := le_pyInt_toNat w 1.2 (by norm_num)
  have hH := le_pyInt_toNat h 1.2 (by norm_num)
  have hx := centered_bounds hW
  unfold CropInBounds apply_pan_up_crop
  dsimp only
  refine ⟨hx.1, hx.2, ?_, ?_⟩ <;> omega

theorem apply_pan_down_crop_inBounds (e : ℚ) (w h : ℕ) :
    CropInBounds (apply_pan_down_crop e w h) w h := by
  have hW := le_pyInt_toNat w 1.2 (by norm_num)
  have hH := le_pyInt_toNat h 1.2 (by norm_num)
  have hx := centered_bounds hW
  unfold CropInBounds apply_pan_down_crop
  dsimp only
  refine ⟨hx.1, hx.2, ?_, ?_⟩ <;> omega

theorem apply_zoom_pan_left_crop_inBounds {e : ℚ} (he0 : 0 ≤ e) (he1 : e ≤ 1)
    (w h : ℕ) : CropInBounds (apply_zoom_pan_left_crop e w h) w h := by
  have hz : (1:ℚ) ≤ 1.0 + (1.25 - 1.0) * e := by nlinarith
  have hW := le_pyInt_toNat w _ hz
  have hH := le_pyInt_toNat h _ hz
  have hy := centered_bounds hH
  unfold CropInBounds apply_zoom_pan_left_crop
  dsimp only
  refine ⟨?_, ?_, hy.1, hy.2⟩ <;> omega

theorem apply_zoom_pan_right_crop_inBounds {e : ℚ} (he0 : 0 ≤ e) (he1 : e ≤ 1)
    (w h : ℕ) : CropInBounds (apply_zoom_pan_right_crop e w h) w h := by
  have hz : (1:ℚ) ≤ 1.0 + (1.25 - 1.0) * e := by nlinarith
  have hW := le_pyInt_toNat w _ hz
  have hH := le_pyInt_toNat h _ hz
  have hy := centered_bounds hH
  unfold CropInBounds apply_zoom_pan_right_crop
  dsimp only
  refine ⟨?_, ?_, hy.1, hy.2⟩ <;> omega

theorem apply_zoom_pan_up_crop_inBounds {e : ℚ} (he0 : 0 ≤ e) (he1 : e ≤ 1)
    (w h : ℕ) : CropInBounds (apply_zoom_pan_up_crop e w h) w h := by
  have hz : (1:ℚ) ≤ 1.0 + (1.25 - 1.0) * e := by nlinarith
  have hW := le_pyInt_toNat w _ hz
  have hH := le_pyInt_toNat h _ hz
  have hx := centered_bounds hW
  unfold CropInBounds apply_zoom_pan_up_crop
  dsimp only
  refine ⟨hx.1, hx.2, ?_, ?_⟩ <;> omega

theorem apply_zoom_pan_down_crop_inBounds {e : ℚ} (he0 : 0 ≤ e) (he1 : e ≤ 1)
    (w h : ℕ) : CropInBounds (apply_zoom_pan_down_crop e w h) w h := by
  have hz : (1:ℚ) ≤ 1.0 + (1.25 - 1.0) * e := by nlinarith
  have hW := le_pyInt_toNat w _ hz
  have hH := le_pyInt_toNat h _ hz
  have hx := centered_bounds hW
  unfold CropInBounds apply_zoom_pan_down_crop
  dsimp only
  refine ⟨hx.1, hx.2, ?_, ?_⟩ <;> omega

theorem apply_rotate_zoom_crop_inBounds {e : ℚ} (he0 : 0 ≤ e) (he1 : e ≤ 1)
    (w h : ℕ) : CropInBounds (apply_rotate_zoom_crop e w h) w h := by
  have hz : (1:ℚ) ≤ (1.1 + (1.3 - 1.1) * e) * 1.5 := by nlinarith
  have hM : max w h ≤
      (pyInt ((max w h : ℕ) * (1.1 + (1.3 - 1.1) * e) * 1.5)).toNat := by
    rw [mul_assoc]
    exact le_pyInt_toNat _ _ hz
  have hW : w ≤ (pyInt ((max w h : ℕ) * (1.1 + (1.3 - 1.1) * e) * 1.5)).toNat :=
    le_trans (le_max_left w h) hM
  have hH : h ≤ (pyInt ((max w h : ℕ) * (1.1 + (1.3 - 1.1) * e) * 1.5)).toNat :=
    le_trans (le_max_right w h) hM
  have hx := centered_bounds hW
  have hy := centered_bounds hH
  exact ⟨hx.1, hx.2, hy.1, hy.2⟩

theorem apply_spiral_crop_inBounds (mcos msin : ℚ → ℚ) {e : ℚ} (he0 : 0 ≤ e)
    (he1 : e ≤ 1) (w h : ℕ) :
    CropInBounds (apply_spiral_crop mcos msin e w h) w h := by
  have hz : (1:ℚ) ≤ 1.0 + (1.4 - 1.0) * e := by nlinarith
  have hW := le_pyInt_toNat w _ hz
  have hH := le_pyInt_toNat h _ hz
  unfold CropInBounds apply_spiral_crop
  dsimp only
  refine ⟨?_, ?_, ?_, ?_⟩ <;> omega

theorem ken_burns_crop_eq (mcos msin : ℚ → ℚ) (p : ℚ) (kind : String)
    (w h : ℕ) :
    ken_burns_crop mcos msin p kind w h =
    (if kind = KenBurnsEffect.ZOOM_IN then
      apply_zoom_in_crop (easing_function (max 0.0 (min 1.0 p))) w h
    else if kind = KenBurnsEffect.ZOOM_OUT then
      apply_zoom_out_crop (easing_function (max 0.0 (min 1.0 p))) w h
    else if kind = KenBurnsEffect.PAN_LEFT then
      apply_pan_left_crop (easing_function (max 0.0 (min 1.0 p))) w h
    else if kind = KenBurnsEffect.PAN_RIGHT then
      apply_pan_right_crop (easing_function (max 0.0 (min 1.0 p))) w h
    else if kind = KenBurnsEffect.PAN_UP then
      apply_pan_up_crop (easing_function (max 0.0 (min 1.0 p))) w h
    else if kind = KenBurnsEffect.PAN_DOWN then
      apply_pan_down_crop (easing_function (max 0.0 (min 1.0 p))) w h
    else if kind = KenBurnsEffect.ZOOM_PAN_LEFT then
      apply_zoom_pan_left_crop (easing_function (max 0.0 (min 1.0 p))) w h
    else if kind = KenBurnsEffect.ZOOM_PAN_RIGHT then
      apply_zoom_pan_right_crop (easing_function (max 0.0 (min 1.0 p))) w h
    else if kind = KenBurnsEffect.ZOOM_PAN_UP then
      apply_zoom_pan_up_crop (easing_function (max 0.0 (min 1.0 p))) w h
    else if kind = KenBurnsEffect.ZOOM_PAN_DOWN then
      apply_zoom_pan_down_crop (easing_function (max 0.0 (min 1.0 p))) w h
    else if kind = KenBurnsEffect.ROTATE_ZOOM then
      apply_rotate_zoom_crop (easing_function (max 0.0 (min 1.0 p))) w h
    else if kind = KenBurnsEffect.SPIRAL then
      apply_spiral_crop mcos msin (easing_function (max 0.0 (min 1.0 p))) w h
    else
      apply_zoom_in_crop (easing_function (max 0.0 (min 1.0 p))) w h) := rfl

theorem ken_burns_crop_inBounds (mcos msin : ℚ → ℚ) (p : ℚ) (kind : String)
    (w h : ℕ) : CropInBounds (ken_burns_crop mcos msin p kind w h) w h := by
  have hc := clamp01_mem p
  have he := easing_mem hc.1 hc.2
  rw [ken_burns_crop_eq]
  by_cases h1 : kind = KenBurnsEffect.ZOOM_IN
  · rw [if_pos h1]; exact apply_zoom_in_crop_inBounds he.1 he.2 w h
  rw [if_neg h1]
  by_cases h2 : kind = KenBurnsEffect.ZOOM_OUT
  · rw [if_pos h2]; exact apply_zoom_out_crop_inBounds he.1 he.2 w h
  rw [if_neg h2]
  by_cases h3 : kind = KenBurnsEffect.PAN_LEFT
  · rw [if_pos h3]; exact apply_pan_left_crop_inBounds _ w h
  rw [if_neg h3]
  by_cases h4 : kind = KenBurnsEffect.PAN_RIGHT
  · rw [if_pos h4]; exact apply_pan_right_crop_inBounds _ w h
  rw [if_neg h4]
  by_cases h5 : kind = KenBurnsEffect.PAN_UP
  · rw [if_pos h5]; exact apply_pan_up_crop_inBounds _ w h
  rw [if_neg h5]
  by_cases h6 : kind = KenBurnsEffect.PAN_DOWN
  · rw [if_pos h6]; exact apply_pan_down_crop_inBounds _ w h
  rw [if_neg h6]
  by_cases h7 : kind = KenBurnsEffect.ZOOM_PAN_LEFT
  · rw [if_pos h7]; exact apply_zoom_pan_left_crop_inBounds he.1 he.2 w h
  rw [if_neg h7]
  by_cases h8 : kind = KenBurnsEffect.ZOOM_PAN_RIGHT
  · rw [if_pos h8]; exact apply_zoom_pan_right_crop_inBounds he.1 he.2 w h
  rw [if_neg h8]
  by_cases h9 : kind = KenBurnsEffect.ZOOM_PAN_UP
  · rw [if_pos h9]; exact apply_zoom_pan_up_crop_inBounds he.1 he.2 w h
  rw [if_neg h9]
  by_cases h10 : kind = KenBurnsEffect.ZOOM_PAN_DOWN
  · rw [if_pos h10]; exact apply_zoom_pan_down_crop_inBounds he.1 he.2 w h
  rw [if_neg h10]
  by_cases h11 : kind = KenBurnsEffect.ROTATE_ZOOM
  · rw [if_pos h11]; exact apply_rotate_zoom_crop_inBounds he.1 he.2 w h
  rw [if_neg h11]
  by_cases h12 : kind = KenBurnsEffect.SPIRAL
  · rw [if_pos h12]; exact apply_spiral_crop_inBounds mcos msin he.1 he.2 w h
  rw [if_neg h12]
  exact apply_zoom_in_crop_inBounds he.1 he.2 w h

/-! ### Effect output dimensions -/

theorem apply_rotate_zoom_size (img : Image) {e : ℚ} (he0 : 0 ≤ e)
    (he1 : e ≤ 1) (w h : ℕ) :
    (apply_rotate_zoom img e w h).height = h ∧
    (apply_rotate_zoom img e w h).width = w := by
  obtain ⟨hx0, hx1, hy0, hy1⟩ := apply_rotate_zoom_crop_inBounds he0 he1 w h
  exact npSlice2_size _ _ _ h w hy0 hy1 hx0 hx1

theorem apply_ken_burns_effect_eq (mcos msin : ℚ → ℚ) (img : Image)
    (p : ℚ) (kind : String) (w h : ℕ) :
    apply_ken_burns_effect mcos msin img p kind w h =
    (if kind = KenBurnsEffect.ZOOM_IN then
      apply_zoom_in img (easing_function (max 0.0 (min 1.0 p))) w h
    else if kind = KenBurnsEffect.ZOOM_OUT then
      apply_zoom_out img (easing_function (max 0.0 (min 1.0 p))) w h
    else if kind = KenBurnsEffect.PAN_LEFT then
      apply_pan_left img (easing_function (max 0.0 (min 1.0 p))) w h
    else if kind = KenBurnsEffect.PAN_RIGHT then
      apply_pan_right img (easing_function (max 0.0 (min 1.0 p))) w h
    else if kind = KenBurnsEffect.PAN_UP then
      apply_pan_up img (easing_function (max 0.0 (min 1.0 p))) w h
    else if kind = KenBurnsEffect.PAN_DOWN then
      apply_pan_down img (easing_function (max 0.0 (min 1.0 p))) w h
    else if kind = KenBurnsEffect.ZOOM_PAN_LEFT then
      apply_zoom_pan_left img (easing_function (max 0.0 (min 1.0 p))) w h
    else if kind = KenBurnsEffect.ZOOM_PAN_RIGHT then
      apply_zoom_pan_right img (easing_function (max 0.0 (min 1.0 p))) w h
    else if kind = KenBurnsEffect.ZOOM_PAN_UP then
      apply_zoom_pan_up img (easing_function (max 0.0 (min 1.0 p))) w h
    else if kind = KenBurnsEffect.ZOOM_PAN_DOWN then
      apply_zoom_pan_down img (easing_function (max 0.0 (min 1.0 p))) w h
    else if kind = KenBurnsEffect.ROTATE_ZOOM then
      apply_rotate_zoom img (easing_function (max 0.0 (min 1.0 p))) w h
    else if kind = KenBurnsEffect.SPIRAL then
      apply_spiral mcos msin img (easing_function (max 0.0 (min 1.0 p))) w h
    else
      apply_zoom_in img (easing_function (max 0.0 (min 1.0 p))) w h) := rfl

theorem ken_burns_size (mcos msin : ℚ → ℚ) (img : Image) (p : ℚ)
    (kind : String) (w h : ℕ) :
    (apply_ken_burns_effect mcos msin img p kind w h).height = h ∧
    (apply_ken_burns_effect mcos msin img p kind w h).width = w := by
  have hc := clamp01_mem p
  have he := easing_mem hc.1 hc.2
  rw [apply_ken_burns_effect_eq]
  by_cases h1 : kind = KenBurnsEffect.ZOOM_IN
  · rw [if_pos h1]; exact crop_from_spec_size img _ w h (apply_zoom_in_crop_inBounds he.1 he.2 w h)
  rw [if_neg h1]
  by_cases h2 : kind = KenBurnsEffect.ZOOM_OUT
  · rw [if_pos h2]; exact crop_from_spec_size img _ w h (apply_zoom_out_crop_inBounds he.1 he.2 w h)
  rw [if_neg h2]
  by_cases h3 : kind = KenBurnsEffect.PAN_LEFT
  · rw [if_pos h3]; exact crop_from_spec_size img _ w h (apply_pan_left_crop_inBounds _ w h)
  rw [if_neg h3]
  by_cases h4 : kind = KenBurnsEffect.PAN_RIGHT
  · rw [if_pos h4]; exact crop_from_spec_size img _ w h (apply_pan_right_crop_inBounds _ w h)
  rw [if_neg h4]
  by_cases h5 : kind = KenBurnsEffect.PAN_UP
  · rw [if_pos h5]; exact crop_from_spec_size img _ w h (apply_pan_up_crop_inBounds _ w h)
  rw [if_neg h5]
  by_cases h6 : kind = KenBurnsEffect.PAN_DOWN
  · rw [if_pos h6]; exact crop_from_spec_size img _ w h (apply_pan_down_crop_inBounds _ w h)
  rw [if_neg h6]
  by_cases h7 : kind = KenBurnsEffect.ZOOM_PAN_LEFT
  · rw [if_pos h7]; exact crop_from_spec_size img _ w h (apply_zoom_pan_left_crop_inBounds he.1 he.2 w h)
  rw [if_neg h7]
  by_cases h8 : kind = KenBurnsEffect.ZOOM_PAN_RIGHT
  · rw [if_pos h8]; exact crop_from_spec_size img _ w h (apply_zoom_pan_right_crop_inBounds he.1 he.2 w h)
  rw [if_neg h8]
  by_cases h9 : kind = KenBurnsEffect.ZOOM_PAN_UP
  · rw [if_pos h9]; exact crop_from_spec_size img _ w h (apply_zoom_pan_up_crop_inBounds he.1 he.2 w h)
  rw [if_neg h9]
  by_cases h10 : kind = KenBurnsEffect.ZOOM_PAN_DOWN
  · rw [if_pos h10]; exact crop_from_spec_size img _ w h (apply_zoom_pan_down_crop_inBounds he.1 he.2 w h)
  rw [if_neg h10]
  by_cases h11 : kind = KenBurnsEffect.ROTATE_ZOOM
  · rw [if_pos h11]; exact apply_rotate_zoom_size img he.1 he.2 w h
  rw [if_neg h11]
  by_cases h12 : kind = KenBurnsEffect.SPIRAL
  · rw [if_pos h12]; exact crop_from_spec_size img _ w h (apply_spiral_crop_inBounds mcos msin he.1 he.2 w h)
  rw [if_neg h12]
  exact crop_from_spec_size img _ w h (apply_zoom_in_crop_inBounds he.1 he.2 w h)

/-! ### Effects on the all-black placeholder -/

theorem apply_rotate_zoom_black (H W : ℕ) {e : ℚ} (he0 : 0 ≤ e) (he1 : e ≤ 1)
    (w h : ℕ) : apply_rotate_zoom (blackImage H W) e w h = blackImage h w := by
  have hs := apply_rotate_zoom_size (blackImage H W) he0 he1 w h
  ext r c
  · exact hs.1
  · exact hs.2
  · simp only [apply_rotate_zoom, npSlice2, warpAffine, npAssign, cvResize,
      blackImage, ite_self]

theorem ken_burns_black (mcos msin : ℚ → ℚ) (H W : ℕ) (p : ℚ) (kind : String)
    (w h : ℕ) :
    apply_ken_burns_effect mcos msin (blackImage H W) p kind w h =
      blackImage h w := by
  have hc := clamp01_mem p
  have he := easing_mem hc.1 hc.2
  rw [apply_ken_burns_effect_eq]
  by_cases h1 : kind = KenBurnsEffect.ZOOM_IN
  · rw [if_pos h1]; exact crop_from_spec_black H W _ w h (apply_zoom_in_crop_inBounds he.1 he.2 w h)
  rw [if_neg h1]
  by_cases h2 : kind = KenBurnsEffect.ZOOM_OUT
  · rw [if_pos h2]; exact crop_from_spec_black H W _ w h (apply_zoom_out_crop_inBounds he.1 he.2 w h)
  rw [if_neg h2]
  by_cases h3 : kind = KenBurnsEffect.PAN_LEFT
  · rw [if_pos h3]; exact crop_from_spec_black H W _ w h (apply_pan_left_crop_inBounds _ w h)
  rw [if_neg h3]
  by_cases h4 : kind = KenBurnsEffect.PAN_RIGHT
  · rw [if_pos h4]; exact crop_from_spec_black H W _ w h (apply_pan_right_crop_inBounds _ w h)
  rw [if_neg h4]
  by_cases h5 : kind = KenBurnsEffect.PAN_UP
  · rw [if_pos h5]; exact crop_from_spec_black H W _ w h (apply_pan_up_crop_inBounds _ w h)
  rw [if_neg h5]
  by_cases h6 : kind = KenBurnsEffect.PAN_DOWN
  · rw [if_pos h6]; exact crop_from_spec_black H W _ w h (apply_pan_down_crop_inBounds _ w h)
  rw [if_neg h6]
  by_cases h7 : kind = KenBurnsEffect.ZOOM_PAN_LEFT
  · rw [if_pos h7]; exact crop_from_spec_black H W _ w h (apply_zoom_pan_left_crop_inBounds he.1 he.2 w h)
  rw [if_neg h7]
  by_cases h8 : kind = KenBurnsEffect.ZOOM_PAN_RIGHT
  · rw [if_pos h8]; exact crop_from_spec_black H W _ w h (apply_zoom_pan_right_crop_inBounds he.1 he.2 w h)
  rw [if_neg h8]
  by_cases h9 : kind = KenBurnsEffect.ZOOM_PAN_UP
  · rw [if_pos h9]; exact crop_from_spec_black H W _ w h (apply_zoom_pan_up_crop_inBounds he.1 he.2 w h)
  rw [if_neg h9]
  by_cases h10 : kind = KenBurnsEffect.ZOOM_PAN_DOWN
  · rw [if_pos h10]; exact crop_from_spec_black H W _ w h (apply_zoom_pan_down_crop_inBounds he.1 he.2 w h)
  rw [if_neg h10]
  by_cases h11 : kind = KenBurnsEffect.ROTATE_ZOOM
  · rw [if_pos h11]; exact apply_rotate_zoom_black H W he.1 he.2 w h
  rw [if_neg h11]
  by_cases h12 : kind = KenBurnsEffect.SPIRAL
  · rw [if_pos h12]; exact crop_from_spec_black H W _ w h (apply_spiral_crop_inBounds mcos msin he.1 he.2 w h)
  rw [if_neg h12]
  exact crop_from_spec_black H W _ w h (apply_zoom_in_crop_inBounds he.1 he.2 w h)

/-! ### Claim C1 -/

/-- C1: for every input image, every effect kind, every target width > 0 and
height > 0, and every progress value including out-of-range inputs (progress
is clamped to `[0,1]` before use), `apply_ken_burns_effect` returns a pixel
buffer of exactly `height` rows by `width` columns. -/
theorem C1_apply_ken_burns_effect_exact_size (mcos msin : ℚ → ℚ) (img : Image)
    (progress : ℚ) (effect_type : String) (width height : ℕ)
    (hw : 0 < width) (hh : 0 < height) :
    (apply_ken_burns_effect mcos msin img progress effect_type width height).height
        = height ∧
    (apply_ken_burns_effect mcos msin img progress effect_type width height).width
        = width :=
  ken_burns_size mcos msin img progress effect_type width height

/-- Witness for C1 at the out-of-range progress `-0.2`, kind `spiral`,
target size `64 × 48`. -/
theorem C1_witness :
    0 < 64 ∧ 0 < 48 ∧
    ((apply_ken_burns_effect (fun _ => 0) (fun _ => 0)
        { height := 5, width := 7, pix := fun _ _ => (9, 9, 9) } (-0.2)
        KenBurnsEffect.SPIRAL 64 48).height = 48 ∧
     (apply_ken_burns_effect (fun _ => 0) (fun _ => 0)
        { height := 5, width := 7, pix := fun _ _ => (9, 9, 9) } (-0.2)
        KenBurnsEffect.SPIRAL 64 48).width = 64) :=
  ⟨by decide, by decide,
   C1_apply_ken_burns_effect_exact_size (fun _ => 0) (fun _ => 0)
     { height := 5, width := 7, pix := fun _ _ => (9, 9, 9) } (-0.2)
     KenBurnsEffect.SPIRAL 64 48 (by decide) (by decide)⟩

/-! ### Claim C2 -/

/-- C2: for every effect kind and every progress in `[0,1]` (and positive
target size), the crop window used inside `apply_ken_burns_effect` — taken
from the zoomed buffer, or from the rotated canvas for `rotate_zoom` — lies
entirely within that buffer: each start index is ≥ 0 and start plus the
target dimension is at most the buffer dimension, so the numpy slices never
reach out of range. -/
theorem C2_crop_windows_in_bounds (mcos msin : ℚ → ℚ) (effect_type : String)
    (progress : ℚ) (width height : ℕ) (hp0 : 0 ≤ progress)
    (hp1 : progress ≤ 1) (hw : 0 < width) (hh : 0 < height) :
    CropInBounds (ken_burns_crop mcos msin progress effect_type width height)
      width height :=
  ken_burns_crop_inBounds mcos msin progress effect_type width height

/-- Witness for C2 at progress `1/2`, kind `pan_left`, target `100 × 100`. -/
theorem C2_witness :
    (0:ℚ) ≤ 1/2 ∧ (1/2:ℚ) ≤ 1 ∧ 0 < 100 ∧ 0 < 100 ∧
    CropInBounds (ken_burns_crop (fun _ => 0) (fun _ => 0) (1/2)
      KenBurnsEffect.PAN_LEFT 100 100) 100 100 :=
  ⟨by norm_num, by norm_num, by decide, by decide,
   C2_crop_windows_in_bounds (fun _ => 0) (fun _ => 0) KenBurnsEffect.PAN_LEFT
     (1/2) 100 100 (by norm_num) (by norm_num) (by decide) (by decide)⟩

/-! ### Claim C5: pan_left / pan_right geometry -/

theorem pan_left_startX (e : ℚ) (w h : ℕ) :
    (apply_pan_left_crop e w h).startX =
      max 0 (min
        (pyInt ((((pyInt ((w : ℚ) * 1.2)).toNat : ℚ) - (w : ℚ)) -
          e * ((pyInt ((w : ℚ) * 0.3)) : ℚ)))
        (((pyInt ((w : ℚ) * 1.2)).toNat : ℤ) - (w : ℤ))) := rfl

theorem pan_right_startX (e : ℚ) (w h : ℕ) :
    (apply_pan_right_crop e w h).startX =
      max 0 (min (pyInt (e * ((pyInt ((w : ℚ) * 0.3)) : ℤ)))
        (((pyInt ((w : ℚ) * 1.2)).toNat : ℤ) - (w : ℤ))) := rfl

theorem pan_margin_le (w : ℕ) :
    ((pyInt ((w : ℚ) * 1.2)).toNat : ℤ) - (w : ℤ) ≤ pyInt ((w : ℚ) * 0.3) := by
  have h12 : (0:ℚ) ≤ (w : ℚ) * 1.2 := by positivity
  have h03 : (0:ℚ) ≤ (w : ℚ) * 0.3 := by positivity
  rw [pyInt_of_nonneg h12, pyInt_of_nonneg h03]
  have hsplit : ⌊(w : ℚ) * 1.2⌋ = (w : ℤ) + ⌊(w : ℚ) * 0.2⌋ := by
    rw [show ((w : ℚ) * 1.2) = ((w : ℤ) : ℚ) + (w : ℚ) * 0.2 by push_cast; ring]
    exact Int.floor_int_add w ((w : ℚ) * 0.2)
  have hmono : ⌊(w : ℚ) * 0.2⌋ ≤ ⌊(w : ℚ) * 0.3⌋ := by
    apply Int.floor_mono
    have : (0:ℚ) ≤ (w : ℚ) := by positivity
    nlinarith
  have htoNat : ((⌊(w : ℚ) * 1.2⌋.toNat) : ℤ) = ⌊(w : ℚ) * 1.2⌋ :=
    Int.toNat_of_nonneg (Int.floor_nonneg.2 h12)
  omega

theorem pan_distance_nonneg (w : ℕ) : 0 ≤ pyInt ((w : ℚ) * 0.3) := by
  rw [pyInt_of_nonneg (by positivity)]
  exact Int.floor_nonneg.2 (by positivity)

/-- C5 amended: for `pan_left`/`pan_right` the zoom factor is fixed at 1.2,
and as eased progress goes 0 → 1 the horizontal crop offset sweeps the full
zoom margin `zoom_width - width` (about 20% of the target width) — not the
nominal 30% `pan_distance`, which exceeds the margin and is clamped — in
opposite directions: `pan_left` starts at the right edge of the zoomed image
(`zoom_width - width`) and moves monotonically left to 0, `pan_right` starts
at 0 and moves monotonically right to `zoom_width - width`. -/
theorem C5_amended_pan_geometry (width height : ℕ) (hw : 0 < width)
    (hh : 0 < height) (p q : ℚ) (hp0 : 0 ≤ p) (hpq : p ≤ q) (hq1 : q ≤ 1) :
    (apply_pan_left_crop p width height).zoomW =
        (pyInt ((width : ℚ) * 1.2)).toNat ∧
    (apply_pan_right_crop p width height).zoomW =
        (pyInt ((width : ℚ) * 1.2)).toNat ∧
    (apply_pan_left_crop 0 width height).startX =
        ((pyInt ((width : ℚ) * 1.2)).toNat : ℤ) - (width : ℤ) ∧
    (apply_pan_left_crop 1 width height).startX = 0 ∧
    (apply_pan_right_crop 0 width height).startX = 0 ∧
    (apply_pan_right_crop 1 width height).startX =
        ((pyInt ((width : ℚ) * 1.2)).toNat : ℤ) - (width : ℤ) ∧
    (apply_pan_left_crop q width height).startX ≤
        (apply_pan_left_crop p width height).startX ∧
    (apply_pan_right_crop p width height).startX ≤
        (apply_pan_right_crop q width height).startX := by
  have hW := le_pyInt_toNat width 1.2 (by norm_num)
  have hpan := pan_margin_le width
  have hpan0 := pan_distance_nonneg width
  have hpanQ0 : (0:ℚ) ≤ ((pyInt ((width : ℚ) * 0.3)) : ℚ) := by exact_mod_cast hpan0
  refine ⟨rfl, rfl, ?_, ?_, ?_, ?_, ?_, ?_⟩
  · rw [pan_left_startX]
    rw [show ((((pyInt ((width : ℚ) * 1.2)).toNat : ℚ) - (width : ℚ)) -
        0 * ((pyInt ((width : ℚ) * 0.3)) : ℚ)) =
        ((((pyInt ((width : ℚ) * 1.2)).toNat : ℤ) - (width : ℤ) : ℤ) : ℚ) by
      push_cast; ring]
    rw [pyInt_intCast]
    omega
  · rw [pan_left_startX]
    rw [show ((((pyInt ((width : ℚ) * 1.2)).toNat : ℚ) - (width : ℚ)) -
        1 * ((pyInt ((width : ℚ) * 0.3)) : ℚ)) =
        ((((pyInt ((width : ℚ) * 1.2)).toNat : ℤ) - (width : ℤ) -
          pyInt ((width : ℚ) * 0.3) : ℤ) : ℚ) by
      push_cast; ring]
    rw [pyInt_intCast]
    omega
  · rw [pan_right_startX]
    rw [show (0 * ((pyInt ((width : ℚ) * 0.3)) : ℚ)) = ((0 : ℤ) : ℚ) by
      push_cast; ring]
    rw [pyInt_intCast]
    omega
  · rw [pan_right_startX]
    rw [show (1 * ((pyInt ((width : ℚ) * 0.3)) : ℚ)) =
        ((pyInt ((width : ℚ) * 0.3) : ℤ) : ℚ) by push_cast; ring]
    rw [pyInt_intCast]
    omega
  · rw [pan_left_startX, pan_left_startX]
    have hmul : p * ((pyInt ((width : ℚ) * 0.3)) : ℚ) ≤
        q * ((pyInt ((width : ℚ) * 0.3)) : ℚ) :=
      mul_le_mul_of_nonneg_right hpq hpanQ0
    have := pyInt_mono (show
      ((((pyInt ((width : ℚ) * 1.2)).toNat : ℚ) - (width : ℚ)) -
        q * ((pyInt ((width : ℚ) * 0.3)) : ℚ)) ≤
      ((((pyInt ((width : ℚ) * 1.2)).toNat : ℚ) - (width : ℚ)) -
        p * ((pyInt ((width : ℚ) * 0.3)) : ℚ)) by linarith)
    omega
  · rw [pan_right_startX, pan_right_startX]
    have hmul : p * ((pyInt ((width : ℚ) * 0.3)) : ℚ) ≤
        q * ((pyInt ((width : ℚ) * 0.3)) : ℚ) :=
      mul_le_mul_of_nonneg_right hpq hpanQ0
    have := pyInt_mono hmul
    omega

/-- C5 counterexample: at target width 100 the nominal pan distance is
`int(100 * 0.3) = 30`, but the offset actually swept by `pan_right` (and
`pan_left`) between eased progress 0 and 1 is 20, the zoom margin — the
claimed 30%-of-width sweep does not happen. -/
theorem C5_counterexample :
    pyInt ((100 : ℚ) * 0.3) = 30 ∧
    (apply_pan_right_crop 1 100 100).startX -
      (apply_pan_right_crop 0 100 100).startX = 20 ∧
    (apply_pan_left_crop 0 100 100).startX -
      (apply_pan_left_crop 1 100 100).startX = 20 ∧
    (20 : ℤ) ≠ 30 := by
  refine ⟨?_, ?_, ?_, by decide⟩
  · rw [show ((100 : ℚ) * 0.3) = ((30 : ℤ) : ℚ) by norm_num, pyInt_intCast]
  · rw [pan_right_startX, pan_right_startX]
    norm_num [pyInt]
  · rw [pan_left_startX, pan_left_startX]
    norm_num [pyInt]
    rw [show Int.toNat 120 = 120 from rfl]
    norm_num

/-- Witness for the amended C5 at `width = 100`, `height = 50`,
`p = 0`, `q = 1`. -/
theorem C5_witness :
    (apply_pan_left_crop 0 100 50).zoomW =
        (pyInt (((100 : ℕ) : ℚ) * 1.2)).toNat ∧
    (apply_pan_right_crop 0 100 50).zoomW =
        (pyInt (((100 : ℕ) : ℚ) * 1.2)).toNat ∧
    (apply_pan_left_crop 0 100 50).startX =
        ((pyInt (((100 : ℕ) : ℚ) * 1.2)).toNat : ℤ) - ((100 : ℕ) : ℤ) ∧
    (apply_pan_left_crop 1 100 50).startX = 0 ∧
    (apply_pan_right_crop 0 100 50).startX = 0 ∧
    (apply_pan_right_crop 1 100 50).startX =
        ((pyInt (((100 : ℕ) : ℚ) * 1.2)).toNat : ℤ) - ((100 : ℕ) : ℤ) ∧
    (apply_pan_left_crop 1 100 50).startX ≤
        (apply_pan_left_crop 0 100 50).startX ∧
    (apply_pan_right_crop 0 100 50).startX ≤
        (apply_pan_right_crop 1 100 50).startX :=
  C5_amended_pan_geometry 100 50 (by decide) (by decide) 0 1 (by norm_num)
    (by norm_num) (by norm_num)

/-! ### Claim C6 -/

/-- C6: for every timing list and timestamp, `get_subtitle_at_time` returns
the text of the first entry in list order whose closed interval
`start_time ≤ t ≤ end_time` contains `t`, and the empty string when no entry
contains `t` (`List.find?` is exactly first-match-in-list-order). -/
theorem C6_get_subtitle_at_time_first_match (timing : List TimingInfo) (t : ℚ) :
    get_subtitle_at_time timing t =
      ((timing.find? (fun s =>
        decide (s.start_time ≤ t ∧ t ≤ s.end_time))).map
        (fun s => s.text)).getD "" := by
  induction timing with
  | nil => rfl
  | cons info rest ih =>
    unfold get_subtitle_at_time
    by_cases h : info.start_time ≤ t ∧ t ≤ info.end_time
    · rw [if_pos h, List.find?_cons_of_pos _ (by simpa using h)]
      rfl
    · rw [if_neg h, List.find?_cons_of_neg _ (by simpa using h), ih]

/-! ### Claim C10 -/

theorem get_subtitle_at_time_cons (info : TimingInfo)
    (rest : List TimingInfo) (t : ℚ) :
    get_subtitle_at_time (info :: rest) t =
      if info.start_time ≤ t ∧ t ≤ info.end_time then info.text
      else get_subtitle_at_time rest t := rfl

theorem get_subtitle_at_time_append (l₁ l₂ : List TimingInfo) (t : ℚ)
    (h : ∀ s ∈ l₁, ¬(s.start_time ≤ t ∧ t ≤ s.end_time)) :
    get_subtitle_at_time (l₁ ++ l₂) t = get_subtitle_at_time l₂ t := by
  induction l₁ with
  | nil => rfl
  | cons info rest ih =>
    rw [List.cons_append, get_subtitle_at_time_cons, if_neg (h info (by simp))]
    exact ih (fun s hs => h s (by simp [hs]))

/-- C10: at a boundary timestamp `t` that is simultaneously the `end_time`
of segment `a` and the `start_time` of the next segment `b` (all earlier
segments having ended strictly before `t`), the frame renderer's scene
lookup — which tests the half-open `start_time ≤ t < end_time` — selects
the later segment's scene (hence its effect), while the subtitle lookup —
which tests the closed `start_time ≤ t ≤ end_time` — returns the earlier
segment's text, so a boundary frame combines the next scene's image with the
previous segment's subtitle. -/
theorem C10_boundary_scene_vs_subtitle (pre post : List Segment)
    (a b : Segment) (t : ℚ) (hpre : ∀ s ∈ pre, s.end_time < t)
    (ha1 : a.start_time ≤ t) (ha2 : a.end_time = t)
    (hb1 : b.start_time = t) (hb2 : t < b.end_time) :
    (scene_lookup (pre ++ a :: b :: post) t).1 = b.scene ∧
    effect_for_scene (scene_lookup (pre ++ a :: b :: post) t).1 =
      effect_for_scene b.scene ∧
    get_subtitle_at_time ((pre ++ a :: b :: post).map
      (fun s => { text := s.text, start_time := s.start_time,
                  end_time := s.end_time : TimingInfo })) t = a.text := by
  have hfind : (pre ++ a :: b :: post).find? (fun segment =>
      decide (segment.start_time ≤ t ∧ t < segment.end_time)) = some b := by
    rw [List.find?_append]
    have hnone : pre.find? (fun segment =>
        decide (segment.start_time ≤ t ∧ t < segment.end_time)) = none := by
      rw [List.find?_eq_none]
      intro s hs
      have := hpre s hs
      simp only [decide_eq_true_eq, not_and]
      intro _
      linarith
    rw [hnone]
    rw [List.find?_cons_of_neg _ (by simp [ha2])]
    rw [List.find?_cons_of_pos _ (by simp [hb1, hb2])]
    rfl
  have hscene : (scene_lookup (pre ++ a :: b :: post) t).1 = b.scene := by
    unfold scene_lookup
    rw [hfind]
  refine ⟨hscene, by rw [hscene], ?_⟩
  rw [List.map_append]
  rw [get_subtitle_at_time_append _ _ t ?side]
  case side =>
    intro s hs
    simp only [List.mem_map] at hs
    obtain ⟨u, hu, rfl⟩ := hs
    have := hpre u hu
    simp only [not_and]
    intro _
    linarith
  rw [List.map_cons, get_subtitle_at_time_cons,
    if_pos ⟨ha1, le_of_eq ha2.symm⟩]

/-- Witness for C10: two adjacent segments meeting at `t = 2`; the scene
lookup picks scene 2 while the subtitle lookup returns segment 1's text. -/
theorem C10_witness :
    (scene_lookup [⟨1, 1, "hello", 0, 2, 2⟩, ⟨2, 1, "world", 2, 4, 2⟩] 2).1
        = 2 ∧
    effect_for_scene
      (scene_lookup [⟨1, 1, "hello", 0, 2, 2⟩, ⟨2, 1, "world", 2, 4, 2⟩] 2).1
        = effect_for_scene 2 ∧
    get_subtitle_at_time
      (([⟨1, 1, "hello", 0, 2, 2⟩, ⟨2, 1, "world", 2, 4, 2⟩] :
        List Segment).map (fun s =>
        { text := s.text, start_time := s.start_time,
          end_time := s.end_time : TimingInfo })) 2 = "hello" :=
  C10_boundary_scene_vs_subtitle [] [] ⟨1, 1, "hello", 0, 2, 2⟩
    ⟨2, 1, "world", 2, 4, 2⟩ 2 (by simp) (by norm_num) rfl rfl (by norm_num)

/-! ### Claim C3 -/

theorem pyRangeStep_zero (F bs : ℕ) :
    pyRangeStep 0 F bs = (List.range ((F + bs - 1) / bs)).map (fun k => k * bs) := by
  unfold pyRangeStep
  simp

theorem chunks_join_aux (bs : ℕ) (F : ℕ) (n : ℕ) :
    ((List.range n).map
      (fun k => List.range' (k * bs) (min (k * bs + bs) F - k * bs))).flatten
      = List.range' 0 (min (n * bs) F) := by
  induction n with
  | zero => simp
  | succ n ih =>
    rw [List.range_succ, List.map_append, List.flatten_append, ih]
    simp only [List.map_cons, List.map_nil, List.flatten_cons, List.flatten_nil,
      List.append_nil]
    rcases le_or_lt (n * bs) F with hle | hlt
    · rw [min_eq_left hle]
      have happ := List.range'_append_1 0 (n * bs)
        (min (n * bs + bs) F - n * bs)
      simp only [Nat.zero_add] at happ
      rw [happ, Nat.succ_mul]
      congr 1
      omega
    · have h1 : min (n * bs) F = F := min_eq_right hlt.le
      have h2 : min (n * bs + bs) F - n * bs = 0 := by omega
      have h3 : min ((n + 1) * bs) F = F := by
        rw [Nat.succ_mul]
        omega
      rw [h1, h2, h3]
      simp

theorem pyRange_chunks_join (F bs : ℕ) (hbs : 0 < bs) :
    ((pyRangeStep 0 F bs).map
      (fun i => List.range' i (min (i + bs) F - i))).flatten = List.range F := by
  rw [pyRangeStep_zero, List.map_map]
  have hcomp : ((fun i => List.range' i (min (i + bs) F - i)) ∘
      fun k => k * bs) =
      fun k => List.range' (k * bs) (min (k * bs + bs) F - k * bs) := rfl
  rw [hcomp, chunks_join_aux]
  have hdm := Nat.div_add_mod (F + bs - 1) bs
  have hmlt : (F + bs - 1) % bs < bs := Nat.mod_lt _ hbs
  have hcomm : (F + bs - 1) / bs * bs = bs * ((F + bs - 1) / bs) :=
    Nat.mul_comm _ _
  have hge : F ≤ (F + bs - 1) / bs * bs := by omega
  rw [min_eq_right hge, List.range_eq_range']

theorem frame_batches_indices (F bs fps : ℕ) :
    (frame_batches F bs fps).map (fun b => b.map Prod.fst) =
      (pyRangeStep 0 F bs).map (fun i => List.range' i (min (i + bs) F - i)) := by
  unfold frame_batches
  rw [List.map_map]
  simp only [List.map_map]
  apply List.map_congr_left
  intro a _
  show ((List.range' a ((a + bs) ⊓ F - a)).map
    (fun j => ((j, (j : ℚ) / (fps : ℚ)) : ℕ × ℚ))).map Prod.fst = _
  rw [List.map_map]
  exact List.map_id _

/-- C3 amended: the total frame count is
`F = int(total_duration * fps) = ⌊total_duration · fps⌋` (truncation, not
the ceiling the claim states), and the frame batches partition exactly the
contiguous index range `[0, F)` in order, with no overlap and no gap. -/
theorem C3_amended_frame_count_and_partition (td : ℚ) (fps workers : ℕ)
    (h0 : 0 ≤ td) :
    total_frames td fps = (⌊td * ((fps : ℕ) : ℚ)⌋).toNat ∧
    ((frame_batches (total_frames td fps)
        (batch_size (total_frames td fps) workers) fps).map
      (fun b => b.map Prod.fst)).flatten = List.range (total_frames td fps) := by
  constructor
  · unfold total_frames
    rw [pyInt_of_nonneg (by positivity)]
  · rw [frame_batches_indices]
    exact pyRange_chunks_join _ _
      (lt_of_lt_of_le (by norm_num) (le_max_left 30 _))

/-- C3 counterexample: for `total_duration = 1.03 s` and `fps = 30` the code
computes `int(1.03 * 30) = 30` frames, while `ceil(1.03 * 30) = 31`; the
claimed `F = ceil(total_duration × fps)` derivation is wrong. -/
theorem C3_counterexample :
    total_frames (103/100) 30 = 30 ∧
    (⌈(103/100 : ℚ) * 30⌉).toNat = 31 ∧ (30 : ℕ) ≠ 31 := by
  refine ⟨?_, ?_, by decide⟩
  · unfold total_frames
    rw [show ((103/100 : ℚ) * ((30 : ℕ) : ℚ)) = 309/10 by push_cast; norm_num]
    rw [pyInt_of_nonneg (by norm_num)]
    rw [show ⌊(309/10 : ℚ)⌋ = 30 by norm_num]
    decide
  · rw [show ((103/100 : ℚ) * 30) = 309/10 by norm_num]
    rw [show ⌈(309/10 : ℚ)⌉ = 31 by rw [Int.ceil_eq_iff] <;> norm_num]
    decide

/-- Witness for the amended C3 at `total_duration = 2`, `fps = 10`,
`workers = 4`. -/
theorem C3_witness :
    (0:ℚ) ≤ 2 ∧
    (total_frames 2 10 = (⌊(2 : ℚ) * ((10 : ℕ) : ℚ)⌋).toNat ∧
     ((frame_batches (total_frames 2 10) (batch_size (total_frames 2 10) 4)
         10).map (fun b => b.map Prod.fst)).flatten =
       List.range (total_frames 2 10)) :=
  ⟨by norm_num, C3_amended_frame_count_and_partition 2 10 4 (by norm_num)⟩

/-! ### Claim C4 -/

/-- C4 amended: a failed batch is only logged and skipped by the collection
loop, so its frame indices have no rendered value; `make_frame` then
substitutes an all-black `height × width` frame for any such index and the
video is still assembled and written — there is no fatal abort and no check
that every index in `[0, F)` was rendered. -/
theorem C4_amended_missing_frame_black
    (results : List (Option (List (ℕ × Image)))) (fps width height : ℕ)
    (t : ℚ)
    (hmiss : collect_rendered_frames results
      ((pyInt (t * (fps : ℚ))).toNat) = none) :
    make_frame (collect_rendered_frames results) fps width height t =
      blackImage height width := by
  simp only [make_frame]
  rw [hmiss]

/-- C4 counterexample: with a single batch that failed (`none`), frame
index 0 has no rendered value, yet the pipeline does not abort: `make_frame`
returns a well-formed all-black frame and video writing proceeds — no fatal
rendering error, contradicting the claim. -/
theorem C4_counterexample :
    collect_rendered_frames [none] 0 = none ∧
    make_frame (collect_rendered_frames [none]) 30 1440 1920 0 =
      blackImage 1920 1440 := by
  refine ⟨rfl, ?_⟩
  simp only [make_frame]
  rw [show (pyInt ((0 : ℚ) * ((30 : ℕ) : ℚ))).toNat = 0 by
    rw [show ((0 : ℚ) * ((30 : ℕ) : ℚ)) = ((0 : ℤ) : ℚ) by push_cast; ring,
      pyInt_intCast]
    rfl]
  rfl

/-- Witness for the amended C4: one failed batch, queried at `t = 0`. -/
theorem C4_witness :
    make_frame (collect_rendered_frames [none]) 30 1440 1920 0 =
      blackImage 1920 1440 :=
  C4_amended_missing_frame_black [none] 30 1440 1920 0 rfl

/-! ### Claim C9 -/

theorem create_subtitle_overlay_size
    (textO : String → (ℕ → ℕ → Pix) → (ℕ → ℕ → Pix)) (frame : Image)
    (rst_timing : List TimingInfo) (t : ℚ) :
    (create_subtitle_overlay_from_rst textO frame rst_timing t).height =
        frame.height ∧
    (create_subtitle_overlay_from_rst textO frame rst_timing t).width =
        frame.width := by
  simp only [create_subtitle_overlay_from_rst]
  split_ifs <;> exact ⟨rfl, rfl⟩

theorem render_single_frame_eq (mcos msin : ℚ → ℚ)
    (textO : String → (ℕ → ℕ → Pix) → (ℕ → ℕ → Pix))
    (decode_of : ℕ → Option Image) (all_segments : List Segment)
    (rst_timing : List TimingInfo) (width height : ℕ) (current_time : ℚ) :
    render_single_frame mcos msin textO decode_of all_segments rst_timing
      width height current_time =
    create_subtitle_overlay_from_rst textO
      (apply_ken_burns_effect mcos msin
        (get_cached_image
          (decode_of (scene_lookup all_segments current_time).1) width height)
        (max 0 (min 1 ((current_time -
            (scene_lookup all_segments current_time).2.1) /
          (if (scene_lookup all_segments current_time).2.2 -
              (scene_lookup all_segments current_time).2.1 ≤ 0 then 1.0
           else (scene_lookup all_segments current_time).2.2 -
              (scene_lookup all_segments current_time).2.1))))
        (effect_for_scene (scene_lookup all_segments current_time).1)
        width height)
      rst_timing current_time := rfl

/-- C9: when the scene image cannot be decoded, `get_cached_image` returns
an all-black placeholder of exactly the requested `width × height`, and
rendering continues: every frame of such a run is produced with the correct
dimensions from the black placeholder, and whenever no subtitle text is
active at the frame's timestamp the frame is exactly the all-black buffer
(the printed warning is an I/O side effect outside the value model; with
active subtitle text the overlay still draws on top of the placeholder). -/
theorem C9_missing_image_black_placeholder
    (textO : String → (ℕ → ℕ → Pix) → (ℕ → ℕ → Pix)) (mcos msin : ℚ → ℚ)
    (decode_of : ℕ → Option Image) (all_segments : List Segment)
    (rst_timing : List TimingInfo) (width height : ℕ) (t : ℚ)
    (hw : 0 < width) (hh : 0 < height)
    (hmiss : decode_of (scene_lookup all_segments t).1 = none) :
    get_cached_image none width height = blackImage height width ∧
    (render_single_frame mcos msin textO decode_of all_segments rst_timing
      width height t).height = height ∧
    (render_single_frame mcos msin textO decode_of all_segments rst_timing
      width height t).width = width ∧
    ((get_subtitle_at_time rst_timing t).trim = "" →
      render_single_frame mcos msin textO decode_of all_segments rst_timing
        width height t = blackImage height width) := by
  refine ⟨rfl, ?_, ?_, ?_⟩
  · rw [render_single_frame_eq]
    exact (create_subtitle_overlay_size _ _ _ _).1.trans
      (ken_burns_size _ _ _ _ _ _ _).1
  · rw [render_single_frame_eq]
    exact (create_subtitle_overlay_size _ _ _ _).2.trans
      (ken_burns_size _ _ _ _ _ _ _).2
  · intro hsub
    rw [render_single_frame_eq, hmiss,
      show get_cached_image none width height = blackImage height width
        from rfl,
      ken_burns_black]
    simp only [create_subtitle_overlay_from_rst]
    rw [if_pos hsub]

/-- Witness for C9: empty timeline, every scene image missing, target
`8 × 6`, timestamp 0. -/
theorem C9_witness :
    get_cached_image none 8 6 = blackImage 6 8 ∧
    (render_single_frame (fun _ => 0) (fun _ => 0) (fun _ p => p)
      (fun _ => none) [] [] 8 6 0).height = 6 ∧
    (render_single_frame (fun _ => 0) (fun _ => 0) (fun _ p => p)
      (fun _ => none) [] [] 8 6 0).width = 8 ∧
    ((get_subtitle_at_time [] 0).trim = "" →
      render_single_frame (fun _ => 0) (fun _ => 0) (fun _ p => p)
        (fun _ => none) [] [] 8 6 0 = blackImage 6 8) :=
  C9_missing_image_black_placeholder (fun _ p => p) (fun _ => 0) (fun _ => 0)
    (fun _ => none) [] [] 8 6 0 (by decide) (by decide) rfl

/-! ### Claim C8 -/

theorem concat_sample_replicate (c : AudioClip) (hd : 0 < c.duration) :
    ∀ (n : ℕ) (t : ℚ), 0 ≤ t → t < (n : ℚ) * c.duration →
      concat_sample (List.replicate n c) t =
        c.sample (t - c.duration * ⌊t / c.duration⌋) := by
  intro n
  induction n with
  | zero =>
    intro t h0 h1
    norm_num at h1
    linarith
  | succ n ih =>
    intro t h0 h1
    rw [List.replicate_succ]
    show (if t < c.duration then c.sample t
      else concat_sample (List.replicate n c) (t - c.duration)) = _
    by_cases ht : t < c.duration
    · rw [if_pos ht]
      have hz : ⌊t / c.duration⌋ = 0 := by
        rw [Int.floor_eq_zero_iff]
        constructor
        · positivity
        · rw [div_lt_one hd]
          exact ht
      rw [hz]
      norm_num
    · rw [if_neg ht]
      push_neg at ht
      have h1' : t - c.duration < (n : ℚ) * c.duration := by
        push_cast at h1
        linarith
      rw [ih (t - c.duration) (by linarith) h1']
      congr 1
      have hdiv : (t - c.duration) / c.duration = t / c.duration - 1 := by
        field_simp
      rw [hdiv, show (1 : ℚ) = ((1 : ℤ) : ℚ) by norm_num, Int.floor_sub_int]
      push_cast
      ring

theorem loops_cover (d total : ℚ) (hd : 0 < d) (h : d < total) :
    total ≤ ((⌈total / d⌉).toNat : ℚ) * d := by
  have h1 : (0:ℚ) < total / d := div_pos (lt_trans hd h) hd
  have h2 : 0 < ⌈total / d⌉ := Int.ceil_pos.2 h1
  have h3 : ((⌈total / d⌉).toNat : ℚ) = ((⌈total / d⌉ : ℤ) : ℚ) := by
    exact_mod_cast Int.toNat_of_nonneg h2.le
  have h4 : total / d ≤ ((⌈total / d⌉ : ℤ) : ℚ) := Int.le_ceil _
  rw [h3]
  calc total = total / d * d := by field_simp
    _ ≤ ((⌈total / d⌉ : ℤ) : ℚ) * d := mul_le_mul_of_nonneg_right h4 hd.le

/-- C8: when the background music's duration is positive and shorter than
`total_duration`, `process_background_music` repeats it end-to-end
`int(ceil(total/duration))` times and truncates to exactly `total_duration`,
so the result lasts exactly `total_duration` and at every time
`t ∈ [0, total)` plays the music's sample at `t mod duration` (scaled by the
0.3 background volume) — seamless looping with no gaps at loop boundaries;
when the music is longer than `total_duration` it is directly truncated. -/
theorem C8_background_music_looping (m : AudioClip) (total : ℚ) :
    (0 < m.duration → m.duration < total →
      (process_background_music m total).duration = total ∧
      ∀ t, 0 ≤ t → t < total →
        (process_background_music m total).sample t =
          0.3 * m.sample (t - m.duration * ⌊t / m.duration⌋)) ∧
    (total < m.duration →
      (process_background_music m total).duration = total ∧
      ∀ t, (process_background_music m total).sample t = 0.3 * m.sample t) := by
  constructor
  · intro hd hlt
    simp only [process_background_music]
    rw [if_pos hlt]
    constructor
    · simp [with_volume_scaled, subclipped]
    · intro t h0 h1
      show 0.3 * (concatenate_audioclips
        (List.replicate (⌈total / m.duration⌉).toNat m)).sample (0 + t) = _
      rw [zero_add]
      show 0.3 * concat_sample
        (List.replicate (⌈total / m.duration⌉).toNat m) t = _
      rw [concat_sample_replicate m hd _ t h0
        (lt_of_lt_of_le h1 (loops_cover m.duration total hd hlt))]
  · intro hlt
    simp only [process_background_music]
    rw [if_neg (not_lt.2 hlt.le)]
    constructor
    · simp [with_volume_scaled, subclipped]
    · intro t
      show 0.3 * m.sample (0 + t) = _
      rw [zero_add]

/-- Witness for C8: a 2-second ramp track looped over a 7-second video; the
result lasts exactly 7 s, and at `t = 5` plays the sample at `5 mod 2 = 1`. -/
theorem C8_witness :
    (process_background_music ⟨2, fun t => t⟩ 7).duration = 7 ∧
    (process_background_music ⟨2, fun t => t⟩ 7).sample 5 =
      0.3 * ((5 : ℚ) - 2 * ⌊(5 : ℚ) / 2⌋) :=
  ⟨((C8_background_music_looping ⟨2, fun t => t⟩ 7).1 (by norm_num)
      (by norm_num)).1,
   ((C8_background_music_looping ⟨2, fun t => t⟩ 7).1 (by norm_num)
      (by norm_num)).2 5 (by norm_num) (by norm_num)⟩

/-! ### Claim C7 -/

theorem generate_segments_cons (caption_text : String) (scene_duration : ℚ)
    (rest : List (String × ℚ)) (i : ℕ) (cst : ℚ) :
    generate_segments ((caption_text, scene_duration) :: rest) i cst =
      ((scene_chunks caption_text).enum.map
        (scene_segment i cst
          (scene_chunk_duration caption_text scene_duration))) ++
      generate_segments rest (i + 1) (cst + scene_duration) := rfl

theorem scene_chunk_duration_nonneg (caption_text : String)
    {scene_duration : ℚ} (h : 0 ≤ scene_duration) :
    0 ≤ scene_chunk_duration caption_text scene_duration := by
  unfold scene_chunk_duration
  split_ifs
  · positivity
  · exact h

theorem scene_chunk_duration_mul_len (caption_text : String)
    (scene_duration : ℚ) (h : scene_chunks caption_text ≠ []) :
    ((scene_chunks caption_text).length : ℚ) *
      scene_chunk_duration caption_text scene_duration = scene_duration := by
  unfold scene_chunk_duration
  rw [if_pos h]
  have hlen : ((scene_chunks caption_text).length : ℚ) ≠ 0 := by
    have : scene_chunks caption_text ≠ [] := h
    simp [List.length_eq_zero]
    exact this
  field_simp

theorem mem_enumFrom_bounds {α : Type} {jc : ℕ × α} :
    ∀ {l : List α} {k : ℕ}, jc ∈ List.enumFrom k l →
      k ≤ jc.1 ∧ jc.1 < k + l.length := by
  intro l
  induction l with
  | nil => intro k h; simp [List.enumFrom] at h
  | cons a t ih =>
    intro k h
    rw [show List.enumFrom k (a :: t) = (k, a) :: List.enumFrom (k + 1) t
      from rfl] at h
    rcases List.mem_cons.mp h with h1 | h2
    · subst h1; simp
    · have := ih h2
      simp only [List.length_cons]
      omega

theorem generate_segments_mem (scenes : List (String × ℚ)) :
    ∀ (i : ℕ) (cst : ℚ), (∀ p ∈ scenes, 0 ≤ p.2) →
      ∀ s ∈ generate_segments scenes i cst,
        i ≤ s.scene ∧ cst ≤ s.start_time := by
  induction scenes with
  | nil => intro i cst _ s hs; simp [generate_segments] at hs
  | cons head rest ih =>
    intro i cst hd s hs
    obtain ⟨text, dur⟩ := head
    have hdur : (0:ℚ) ≤ dur := hd (text, dur) (by simp)
    rw [generate_segments_cons] at hs
    rcases List.mem_append.mp hs with hb | hr
    · obtain ⟨jc, _, rfl⟩ := List.mem_map.mp hb
      refine ⟨le_refl i, ?_⟩
      have hcd := scene_chunk_duration_nonneg text hdur
      have : (0:ℚ) ≤ (jc.1 : ℚ) * scene_chunk_duration text dur :=
        mul_nonneg (by positivity) hcd
      show cst ≤ cst + (jc.1 : ℚ) * scene_chunk_duration text dur
      linarith
    · have := ih (i + 1) (cst + dur) (fun p hp => hd p (by simp [hp])) s hr
      exact ⟨by omega, by linarith [this.2]⟩

theorem chain'_enumFrom_map {α β : Type} (R : β → β → Prop) (g : ℕ × α → β)
    (hg : ∀ j a b, R (g (j, a)) (g (j + 1, b))) :
    ∀ (l : List α) (k : ℕ), List.Chain' R ((List.enumFrom k l).map g) := by
  intro l
  induction l with
  | nil => intro k; simp
  | cons a t ih =>
    intro k
    cases t with
    | nil => simp
    | cons b t' =>
      rw [show (List.enumFrom k (a :: b :: t')).map g =
        g (k, a) :: ((List.enumFrom (k + 1) (b :: t')).map g) from rfl]
      rw [show (List.enumFrom (k + 1) (b :: t')).map g =
        g (k + 1, b) :: ((List.enumFrom (k + 2) t').map g) from rfl]
      refine List.chain'_cons.mpr ⟨hg k a b, ?_⟩
      rw [show g (k + 1, b) :: ((List.enumFrom (k + 2) t').map g) =
        (List.enumFrom (k + 1) (b :: t')).map g from rfl]
      exact ih (k + 1)

theorem block_mem_start_le (text : String) (dur : ℚ) (i : ℕ) (cst : ℚ)
    (hdur : 0 ≤ dur) :
    ∀ x ∈ (scene_chunks text).enum.map
      (scene_segment i cst (scene_chunk_duration text dur)),
      x.scene = i ∧ x.start_time ≤ cst + dur := by
  intro x hx
  obtain ⟨jc, hjc, rfl⟩ := List.mem_map.mp hx
  refine ⟨rfl, ?_⟩
  have hb : 0 ≤ jc.1 ∧ jc.1 < 0 + (scene_chunks text).length :=
    mem_enumFrom_bounds hjc
  have hne : scene_chunks text ≠ [] := by
    intro hnil
    rw [hnil] at hjc
    simp [List.enum] at hjc
  have hcd := scene_chunk_duration_nonneg text hdur
  have hmul := scene_chunk_duration_mul_len text dur hne
  show cst + (jc.1 : ℚ) * scene_chunk_duration text dur ≤ cst + dur
  have hj : (jc.1 : ℚ) ≤ ((scene_chunks text).length : ℚ) := by
    exact_mod_cast (by omega : jc.1 ≤ (scene_chunks text).length)
  nlinarith [mul_le_mul_of_nonneg_right hj hcd]

theorem generate_segments_chain (scenes : List (String × ℚ)) :
    ∀ (i : ℕ) (cst : ℚ), (∀ p ∈ scenes, 0 ≤ p.2) →
      List.Chain' (fun a b : Segment =>
        a.start_time ≤ b.start_time ∧ a.scene ≤ b.scene ∧
        (a.scene = b.scene → a.end_time = b.start_time))
        (generate_segments scenes i cst) := by
  induction scenes with
  | nil => intro i cst _; simp [generate_segments]
  | cons head rest ih =>
    intro i cst hd
    obtain ⟨text, dur⟩ := head
    have hdur : (0:ℚ) ≤ dur := hd (text, dur) (by simp)
    have hdrest : ∀ p ∈ rest, 0 ≤ p.2 := fun p hp => hd p (by simp [hp])
    have hcd := scene_chunk_duration_nonneg text hdur
    rw [generate_segments_cons]
    apply List.chain'_append.mpr
    refine ⟨?_, ih (i + 1) (cst + dur) hdrest, ?_⟩
    · apply chain'_enumFrom_map
      intro j a b
      simp only [scene_segment]
      refine ⟨?_, le_refl i, fun _ => ?_⟩
      · show cst + (j : ℚ) * _ ≤ cst + ((j + 1 : ℕ) : ℚ) * _
        push_cast
        nlinarith
      · show cst + ((j : ℚ) + 1) * _ = cst + ((j + 1 : ℕ) : ℚ) * _
        push_cast
        ring
    · intro x hx y hy
      have hxm := block_mem_start_le text dur i cst hdur x
        (List.mem_of_mem_getLast? hx)
      have hym := generate_segments_mem rest (i + 1) (cst + dur) hdrest y
        (List.mem_of_mem_head? hy)
      refine ⟨le_trans hxm.2 hym.2, ?_, fun heq => ?_⟩
      · rw [hxm.1]
        omega
      · rw [hxm.1] at heq
        omega

theorem enumFrom_getLast? {α : Type} :
    ∀ (l : List α) (k : ℕ),
      (List.enumFrom k l).getLast? =
        l.getLast?.map (fun a => (k + l.length - 1, a)) := by
  intro l
  induction l with
  | nil => intro k; rfl
  | cons a t ih =>
    intro k
    cases t with
    | nil => rfl
    | cons b t' =>
      rw [show List.enumFrom k (a :: b :: t') =
        (k, a) :: (k + 1, b) :: List.enumFrom (k + 2) t' from rfl]
      rw [List.getLast?_cons_cons]
      rw [show ((k + 1, b) :: List.enumFrom (k + 2) t' : List (ℕ × α)) =
        List.enumFrom (k + 1) (b :: t') from rfl]
      rw [ih (k + 1)]
      rw [List.getLast?_cons_cons]
      cases hxeq : (b :: t').getLast? with
      | none => simp at hxeq
      | some x =>
        simp only [List.length_cons]
        rw [show k + 1 + (t'.length + 1) - 1 = k + (t'.length + 1 + 1) - 1
          by omega]

theorem generate_segments_ne_nil :
    ∀ (scenes : List (String × ℚ)) (i : ℕ) (cst : ℚ) (last : String × ℚ),
      scenes.getLast? = some last → scene_chunks last.1 ≠ [] →
      generate_segments scenes i cst ≠ [] := by
  intro scenes
  induction scenes with
  | nil => intro i cst last h _; simp at h
  | cons head rest ih =>
    intro i cst last hlast hch
    obtain ⟨text, dur⟩ := head
    cases rest with
    | nil =>
      simp only [List.getLast?_singleton, Option.some.injEq] at hlast
      subst hlast
      rw [generate_segments_cons]
      rw [show generate_segments [] (i + 1) (cst + dur) = [] from rfl,
        List.append_nil]
      intro hnil
      apply hch
      simpa [List.map_eq_nil, List.enum_eq_nil] using hnil
    | cons r rest' =>
      rw [List.getLast?_cons_cons] at hlast
      rw [generate_segments_cons]
      intro hcontra
      rcases List.append_eq_nil.mp hcontra with ⟨-, h2⟩
      exact ih (i + 1) (cst + dur) last hlast hch h2

theorem generate_segments_last_end :
    ∀ (scenes : List (String × ℚ)) (i : ℕ) (cst : ℚ) (last : String × ℚ),
      scenes.getLast? = some last → scene_chunks last.1 ≠ [] →
      (generate_segments scenes i cst).getLast?.map (fun s => s.end_time) =
        some (cst + (scenes.map Prod.snd).sum) := by
  intro scenes
  induction scenes with
  | nil => intro i cst last h _; simp at h
  | cons head rest ih =>
    intro i cst last hlast hch
    obtain ⟨text, dur⟩ := head
    cases rest with
    | nil =>
      simp only [List.getLast?_singleton, Option.some.injEq] at hlast
      subst hlast
      rw [generate_segments_cons]
      rw [show generate_segments [] (i + 1) (cst + dur) = [] from rfl,
        List.append_nil]
      rw [List.getLast?_map]
      rw [show (scene_chunks text).enum =
        List.enumFrom 0 (scene_chunks text) from rfl]
      rw [enumFrom_getLast?]
      cases hc : (scene_chunks text).getLast? with
      | none => exact absurd (List.getLast?_eq_none.mp hc) hch
      | some c =>
        simp only [Option.map_some', scene_segment]
        have hlen : 1 ≤ (scene_chunks text).length := by
          cases hsc : scene_chunks text with
          | nil => exact absurd hsc hch
          | cons _ _ => simp [hsc]
        have hcast : ((0 + (scene_chunks text).length - 1 : ℕ) : ℚ) + 1 =
            ((scene_chunks text).length : ℚ) := by
          have h1 : (0 + (scene_chunks text).length - 1 : ℕ) =
              (scene_chunks text).length - 1 := by omega
          rw [h1, Nat.cast_sub hlen]
          norm_num
        rw [hcast, scene_chunk_duration_mul_len text dur hch]
        simp
    | cons r rest' =>
      rw [List.getLast?_cons_cons] at hlast
      rw [generate_segments_cons]
      rw [List.getLast?_append_of_ne_nil _
        (generate_segments_ne_nil _ (i + 1) (cst + dur) last hlast hch)]
      rw [ih (i + 1) (cst + dur) last hlast hch]
      congr 1
      simp only [List.map_cons, List.sum_cons]
      ring

/-- C7 amended: every segment list produced by `generate_complete_rst_file`
(scene durations are nonnegative, as probed audio durations are) is ordered
by non-decreasing `start_time`; scene numbers are non-decreasing along the
list, so segments sharing a scene are consecutive, and adjacent same-scene
segments tile exactly (each `end_time` equals the next `start_time`, so a
scene's segments cover one contiguous interval from the min of their starts
to the max of their ends); and provided the final scene's cleaned caption
yields at least one chunk, the `end_time` of the last segment equals the
total video duration (the sum of all per-scene durations). A scene whose
cleaned caption is empty emits no segments but still advances the clock,
which is the case the original claim misses. -/
theorem C7_amended_timeline_invariants (scenes : List (String × ℚ))
    (hd : ∀ p ∈ scenes, 0 ≤ p.2) :
    List.Chain' (fun a b : Segment => a.start_time ≤ b.start_time)
      (generate_complete_rst_file scenes) ∧
    List.Chain' (fun a b : Segment => a.scene ≤ b.scene)
      (generate_complete_rst_file scenes) ∧
    List.Chain' (fun a b : Segment =>
      a.scene = b.scene → a.end_time = b.start_time)
      (generate_complete_rst_file scenes) ∧
    ((∃ last, scenes.getLast? = some last ∧ scene_chunks last.1 ≠ []) →
      (generate_complete_rst_file scenes).getLast?.map
        (fun s => s.end_time) = some ((scenes.map Prod.snd).sum)) := by
  have hch := generate_segments_chain scenes 1 0 hd
  refine ⟨hch.imp (fun _ _ h => h.1), hch.imp (fun _ _ h => h.2.1),
    hch.imp (fun _ _ h => h.2.2), ?_⟩
  rintro ⟨last, hlast, hne⟩
  have := generate_segments_last_end scenes 1 0 last hlast hne
  simpa using this

/-- C7 counterexample: with captions `["a", ""]` and scene durations
`[1, 1]`, the second scene's cleaned caption chunks to nothing, so it emits
no segments while still advancing time; the last segment's `end_time` is 1,
but the total duration (sum of per-scene durations) is 2 — the claimed
"last end_time equals total duration" invariant fails. -/
theorem C7_counterexample :
    (generate_complete_rst_file [("a", 1), ("", 1)]).getLast?.map
      (fun s => s.end_time) = some 1 ∧
    (([("a", (1:ℚ)), ("", 1)] : List (String × ℚ)).map Prod.snd).sum = 2 ∧
    some (1:ℚ) ≠ some 2 := by
  refine ⟨?_, by norm_num, by norm_num⟩
  have hca : scene_chunks "a" = ["a"] := by decide
  have hce : scene_chunks "" = [] := by decide
  rw [show generate_complete_rst_file [("a", 1), ("", 1)] =
    generate_segments [("a", 1), ("", 1)] 1 0 from rfl]
  rw [generate_segments_cons, generate_segments_cons]
  rw [show generate_segments [] 3 (0 + 1 + 1) = [] from rfl]
  rw [hca, hce]
  rw [show (["a"] : List String).enum = [(0, "a")] from rfl]
  simp only [List.enum_nil, List.map_cons, List.map_nil, List.append_nil,
    List.nil_append]
  rw [show ([scene_segment 1 0 (scene_chunk_duration "a" 1) (0, "a")]
      : List Segment).getLast? =
    some (scene_segment 1 0 (scene_chunk_duration "a" 1) (0, "a")) from rfl]
  simp only [Option.map_some', scene_segment, Option.some.injEq]
  simp only [scene_chunk_duration, hca]
  norm_num

/-- Witness for the amended C7 at a single scene with caption
"hello world" and duration 2. -/
theorem C7_witness :
    List.Chain' (fun a b : Segment => a.start_time ≤ b.start_time)
      (generate_complete_rst_file [("hello world", 2)]) ∧
    List.Chain' (fun a b : Segment => a.scene ≤ b.scene)
      (generate_complete_rst_file [("hello world", 2)]) ∧
    List.Chain' (fun a b : Segment =>
      a.scene = b.scene → a.end_time = b.start_time)
      (generate_complete_rst_file [("hello world", 2)]) ∧
    ((∃ last, ([("hello world", (2:ℚ))] : List (String × ℚ)).getLast? =
        some last ∧ scene_chunks last.1 ≠ []) →
      (generate_complete_rst_file [("hello world", 2)]).getLast?.map
        (fun s => s.end_time) =
        some ((([("hello world", (2:ℚ))] : List (String × ℚ)).map
          Prod.snd).sum)) :=
  C7_amended_timeline_invariants [("hello world", 2)] (by
    rintro p hp
    simp only [List.mem_singleton] at hp
    subst hp
    norm_num)
